import Mathlib

/-!
Verification of the classical-quantum map algebra of `discopy/quantum.py`.

The development shallowly embeds the code:

* numpy complex arrays become functions from multi-indices to `CRat`
  (complex numbers with rational parts, an exact model of the complex
  scalars actually occurring in the code under scrutiny);
* a `discopy.tensor.Tensor` becomes a `Tensor`: a pair of dimension lists
  together with an entry function;
* `CQ` objects and `CQMap` morphisms are translated from
  `src/discopy/quantum.py`;
* the helpers `index2bitstring` / `bitstring2index` are translated from
  `src/discopy/quantum.py`;
* the circuit layer (`Circ`, `Circ.eval`, mixedness) is translated from
  `src/discopy/quantum.py`, with the generic diagram recursion of the
  functors modelled from the spec (the `rigid` / `monoidal` / `tensor`
  modules of the repository are not part of the sources provided).

All definitions are executable; statements about finitely many indices are
decidable.
-/

/-- Complex numbers with integer real and imaginary parts.  numpy arrays in
the source hold complex floats; every scalar reached by the claims is an
exact complex integer (indicators, permutation matrices, ones vectors and
their sums and products), so Gaussian integers are an exact model. -/
@[ext]
structure CRat where
  re : ℤ
  im : ℤ
deriving DecidableEq

instance : Zero CRat := ⟨⟨0, 0⟩⟩

instance : One CRat := ⟨⟨1, 0⟩⟩

instance : Add CRat := ⟨fun a b => ⟨a.re + b.re, a.im + b.im⟩⟩

instance : Neg CRat := ⟨fun a => ⟨-a.re, -a.im⟩⟩

instance : Mul CRat := ⟨fun a b => ⟨a.re * b.re - a.im * b.im, a.re * b.im + a.im * b.re⟩⟩

instance : NatCast CRat := ⟨fun n => ⟨(n : ℤ), 0⟩⟩

instance : IntCast CRat := ⟨fun n => ⟨n, 0⟩⟩

instance : CommRing CRat where
  nsmul := nsmulRec
  zsmul := zsmulRec
  add_assoc a b c := by
    ext
    · show a.re + b.re + c.re = a.re + (b.re + c.re); ring
    · show a.im + b.im + c.im = a.im + (b.im + c.im); ring
  zero_add a := by
    ext
    · show 0 + a.re = a.re; ring
    · show 0 + a.im = a.im; ring
  add_zero a := by
    ext
    · show a.re + 0 = a.re; ring
    · show a.im + 0 = a.im; ring
  add_comm a b := by
    ext
    · show a.re + b.re = b.re + a.re; ring
    · show a.im + b.im = b.im + a.im; ring
  mul_assoc a b c := by
    ext
    · show (a.re * b.re - a.im * b.im) * c.re - (a.re * b.im + a.im * b.re) * c.im =
        a.re * (b.re * c.re - b.im * c.im) - a.im * (b.re * c.im + b.im * c.re)
      ring
    · show (a.re * b.re - a.im * b.im) * c.im + (a.re * b.im + a.im * b.re) * c.re =
        a.re * (b.re * c.im + b.im * c.re) + a.im * (b.re * c.re - b.im * c.im)
      ring
  one_mul a := by
    ext
    · show 1 * a.re - 0 * a.im = a.re; ring
    · show 1 * a.im + 0 * a.re = a.im; ring
  mul_one a := by
    ext
    · show a.re * 1 - a.im * 0 = a.re; ring
    · show a.re * 0 + a.im * 1 = a.im; ring
  left_distrib a b c := by
    ext
    · show a.re * (b.re + c.re) - a.im * (b.im + c.im) =
        a.re * b.re - a.im * b.im + (a.re * c.re - a.im * c.im)
      ring
    · show a.re * (b.im + c.im) + a.im * (b.re + c.re) =
        a.re * b.im + a.im * b.re + (a.re * c.im + a.im * c.re)
      ring
  right_distrib a b c := by
    ext
    · show (a.re + b.re) * c.re - (a.im + b.im) * c.im =
        a.re * c.re - a.im * c.im + (b.re * c.re - b.im * c.im)
      ring
    · show (a.re + b.re) * c.im + (a.im + b.im) * c.re =
        a.re * c.im + a.im * c.re + (b.re * c.im + b.im * c.re)
      ring
  mul_comm a b := by
    ext
    · show a.re * b.re - a.im * b.im = b.re * a.re - b.im * a.im; ring
    · show a.re * b.im + a.im * b.re = b.re * a.im + b.im * a.re; ring
  zero_mul a := by
    ext
    · show 0 * a.re - 0 * a.im = 0; ring
    · show 0 * a.im + 0 * a.re = 0; ring
  mul_zero a := by
    ext
    · show a.re * 0 - a.im * 0 = 0; ring
    · show a.re * 0 + a.im * 0 = 0; ring
  neg_add_cancel a := by
    ext
    · show -a.re + a.re = 0; ring
    · show -a.im + a.im = 0; ring
  natCast_zero := by
    ext
    · show ((0 : ℕ) : ℤ) = 0; norm_num
    · show (0 : ℤ) = 0; norm_num
  natCast_succ n := by
    ext
    · show ((n + 1 : ℕ) : ℤ) = (n : ℤ) + 1; push_cast; ring
    · show (0 : ℤ) = 0 + 0; norm_num
  intCast_ofNat n := by
    ext
    · show ((n : ℤ) : ℤ) = (n : ℤ); norm_num
    · show (0 : ℤ) = 0; norm_num
  intCast_negSucc n := by
    ext
    · show ((Int.negSucc n : ℤ) : ℤ) = -((n + 1 : ℕ) : ℤ)
      rw [Int.negSucc_eq]; push_cast; ring
    · show (0 : ℤ) = -0; norm_num

/-- Complex conjugation on `CRat` (models `numpy.conjugate`). -/
def CRat.conj (a : CRat) : CRat := ⟨a.re, -a.im⟩

/-- Squared modulus of a `CRat`, an integer. -/
def CRat.normSq (a : CRat) : ℤ := a.re * a.re + a.im * a.im

/-- Modelled from the spec: `np.allclose`-style numeric closeness of two
scalars ("Implemented via numeric closeness, not exact equality"): the
squared modulus of the difference is at most `10 ^ (-10)` (numpy uses
`atol=1e-8`, `rtol=1e-5`), written with both sides scaled by `10 ^ 10` so
that the comparison stays in `ℤ`. -/
def CRat.close (a b : CRat) : Prop := (a - b).normSq * 10 ^ 10 ≤ 1

instance (a b : CRat) : Decidable (a.close b) := by
  unfold CRat.close; infer_instance

/-- All multi-indices of a list of axis sizes, in row-major (C) order:
`enumIdx [2,3]` lists `[0,0], [0,1], ..., [1,2]`. -/
def enumIdx : List Nat → List (List Nat)
  | [] => [[]]
  | d :: ds => (List.range d).flatMap (fun i => (enumIdx ds).map (fun is => i :: is))

/-- Sum of a scalar-valued function over all multi-indices of a shape. -/
def sumIdx (ds : List Nat) (F : List Nat → CRat) : CRat :=
  ((enumIdx ds).map F).sum

/-- A tensor in the sense of `discopy.tensor.Tensor` (modelled from the spec,
the `tensor` module being outside `src/`): a domain shape, a codomain shape
and an entry function.  Entries at out-of-range indices are irrelevant; all
statements are about in-range indices. -/
structure Tensor where
  dom : List Nat
  cod : List Nat
  array : List Nat → List Nat → CRat

/-- Modelled from the spec: the identity tensor on a shape
(`discopy.tensor.Tensor.id`). -/
def Tensor.id (d : List Nat) : Tensor :=
  ⟨d, d, fun i j => if i = j then 1 else 0⟩

/-- Modelled from the spec: sequential composition `>>` of tensors,
"contracting `self`'s codomain legs against `other`'s domain legs, in
declared leg order". -/
def Tensor.comp (f g : Tensor) : Tensor :=
  ⟨f.dom, g.cod, fun i k => sumIdx f.cod (fun j => f.array i j * g.array j k)⟩

/-- Modelled from the spec: parallel composition `@` of tensors, i.e. the
Kronecker/outer product with domain legs of both factors followed by
codomain legs of both factors. -/
def Tensor.tensorMul (f g : Tensor) : Tensor :=
  ⟨f.dom ++ g.dom, f.cod ++ g.cod, fun i j =>
    f.array (i.take f.dom.length) (j.take f.cod.length) *
      g.array (i.drop f.dom.length) (j.drop f.cod.length)⟩

/-- Modelled from the spec: conjugate transpose of a tensor
(`discopy.tensor.Tensor.dagger`). -/
def Tensor.dagger (f : Tensor) : Tensor :=
  ⟨f.cod, f.dom, fun j i => (f.array i j).conj⟩

/-- Modelled from the spec: entrywise conjugation without transposition
(`discopy.tensor.Tensor.conjugate`). -/
def Tensor.conjugate (f : Tensor) : Tensor :=
  ⟨f.dom, f.cod, fun i j => (f.array i j).conj⟩

/-- Modelled from the spec: the wire-swap tensor exchanging a bundle of axes
`a` with a bundle of axes `b` (`discopy.tensor.Tensor.swap`). -/
def Tensor.swap (a b : List Nat) : Tensor :=
  ⟨a ++ b, b ++ a, fun i j => if j = i.drop a.length ++ i.take a.length then 1 else 0⟩

/-- Tensor equality as numpy sees it: equal shapes and equal entries at every
in-range index. -/
def Tensor.equiv (f g : Tensor) : Prop :=
  f.dom = g.dom ∧ f.cod = g.cod ∧
    ∀ i ∈ enumIdx f.dom, ∀ j ∈ enumIdx f.cod, f.array i j = g.array i j

instance (f g : Tensor) : Decidable (f.equiv g) := by
  unfold Tensor.equiv; infer_instance

/-- The functor image of the swap layer `Id(x) @ Swap(y, z) @ Id(w)` used in
`CQMap.tensor` (source lines 176-184); `@` is left associative in Python. -/
def layer (x y z w : List Nat) : Tensor :=
  ((Tensor.id x).tensorMul (Tensor.swap y z)).tensorMul (Tensor.id w)

/-- `CQ`: the dimensions of classical-quantum systems, a pair of a classical
and a quantum dimension (each a list of axis sizes, the translation of
`discopy.tensor.Dim`). -/
@[ext]
structure CQ where
  classical : List Nat
  quantum : List Nat
deriving DecidableEq

/-- `CQ.tensor` (source lines 78-80): componentwise concatenation. -/
def CQ.tensor (a b : CQ) : CQ :=
  ⟨a.classical ++ b.classical, a.quantum ++ b.quantum⟩

/-- The unit object `CQ()`. -/
def CQ.unit : CQ := ⟨[], []⟩

/-- The classical special case `C(dim)` (source lines 91-97). -/
def CQ.C (dim : List Nat) : CQ := ⟨dim, []⟩

/-- The quantum special case `Q(dim)` (source lines 100-106). -/
def CQ.Q (dim : List Nat) : CQ := ⟨[], dim⟩

/-- The flattened legs of a `CQ` object as carried by the backing tensor of a
`CQMap`: `classical @ quantum @ quantum` (source lines 128-130). -/
def CQ.dims (a : CQ) : List Nat := a.classical ++ a.quantum ++ a.quantum

/-- `CQMap` (source lines 109-132): a morphism between `CQ` objects backed by
an array whose legs are `dom.dims` then `cod.dims`.  The backing tensor is
always built from `dom`, `cod` and the array, so the shape invariant holds by
construction. -/
structure CQMap where
  dom : CQ
  cod : CQ
  array : List Nat → List Nat → CRat

/-- The backing tensor of a `CQMap` (the `data` attribute, source lines
128-131). -/
def CQMap.data (f : CQMap) : Tensor := ⟨f.dom.dims, f.cod.dims, f.array⟩

/-- `CQMap.__eq__` (source lines 134-137): equal `dom`, `cod` and equal
backing arrays (at every in-range index). -/
def CQMap.equiv (f g : CQMap) : Prop :=
  f.dom = g.dom ∧ f.cod = g.cod ∧
    ∀ i ∈ enumIdx f.dom.dims, ∀ j ∈ enumIdx f.cod.dims, f.array i j = g.array i j

instance (f g : CQMap) : Decidable (f.equiv g) := by
  unfold CQMap.equiv; infer_instance

/-- `CQMap.__add__` (source lines 146-149): requires equal `(dom, cod)`
pairs, else an `AxiomError`; otherwise the entrywise sum. -/
def CQMap.add (f g : CQMap) : Except String CQMap :=
  if (f.dom, f.cod) = (g.dom, g.cod) then
    Except.ok ⟨f.dom, f.cod, fun i j => f.array i j + g.array i j⟩
  else Except.error "AxiomError: cannot add"

/-- `CQMap.id` (source lines 151-154). -/
def CQMap.id (dom : CQ) : CQMap :=
  ⟨dom, dom, (Tensor.id dom.dims).array⟩

/-- Unchecked sequential composition: the tensor contraction performed by
`CQMap.then` once the composability check of the underlying `>>` has
passed (source lines 156-160). -/
def CQMap.thenU (f g : CQMap) : CQMap :=
  ⟨f.dom, g.cod, (f.data.comp g.data).array⟩

/-- `CQMap.then` (source lines 156-160): `self.data >> other.data` checks
that the codomain shape of the left tensor equals the domain shape of the
right one and raises an `AxiomError` otherwise (modelled from the spec: the
composability check lives in the `tensor` module, outside `src/`). -/
def CQMap.then' (f g : CQMap) : Except String CQMap :=
  if f.cod.dims = g.dom.dims then Except.ok (f.thenU g)
  else Except.error "AxiomError: does not compose"

/-- `CQMap.dagger` (source lines 162-163). -/
def CQMap.dagger (f : CQMap) : CQMap :=
  ⟨f.cod, f.dom, f.data.dagger.array⟩

/-- `CQMap.tensor` (source lines 165-188): evaluates the diagram
`permute_above >> f @ g >> permute_below` through a tensor functor.  The two
permutations are each two layers of the shape `Id(x) @ Swap(y, z) @ Id(w)`
over the symbolic leg types `c00, q00, ... , q11`, whose images under the
functor are the classical/quantum dimension lists of `f` and `g`. -/
def CQMap.tensor (f g : CQMap) : CQMap :=
  let c00 := f.dom.classical
  let q00 := f.dom.quantum
  let c01 := g.dom.classical
  let q01 := g.dom.quantum
  let c10 := f.cod.classical
  let q10 := f.cod.quantum
  let c11 := g.cod.classical
  let q11 := g.cod.quantum
  let l1 := layer (c00 ++ c01 ++ q00) q01 q00 q01
  let l2 := layer c00 c01 (q00 ++ q00) (q01 ++ q01)
  let l3 := layer c10 (q10 ++ q10) c11 (q11 ++ q11)
  let l4 := layer (c10 ++ c11 ++ q10) q10 q11 q11
  ⟨f.dom.tensor g.dom, f.cod.tensor g.cod,
    (((((l1.comp l2).comp (f.data.tensorMul g.data)).comp l3).comp l4)).array⟩

/-- `CQMap.swap` (source lines 190-195): swap applied once to the classical
dimensions and twice to the quantum dimensions. -/
def CQMap.swap (left right : CQ) : CQMap :=
  ⟨left.tensor right, right.tensor left,
    (((Tensor.swap left.classical right.classical).tensorMul
        (Tensor.swap left.quantum right.quantum)).tensorMul
      (Tensor.swap left.quantum right.quantum)).array⟩

/-- The length-one base case of `CQMap.measure` (source lines 201-216): the
3-index indicator `1[i = j = k]` if destructive, else the 5-index indicator
`1[i = j = k = l = m]`. -/
def CQMap.measure1 (d : Nat) (destructive : Bool) : CQMap :=
  if destructive then
    ⟨CQ.Q [d], CQ.C [d], fun di cj =>
      match di, cj with
      | [i, j], [k] => if i = j ∧ j = k then 1 else 0
      | _, _ => 0⟩
  else
    ⟨CQ.Q [d], (CQ.C [d]).tensor (CQ.Q [d]), fun di cj =>
      match di, cj with
      | [i, j], [k, l, m] => if i = j ∧ j = k ∧ k = l ∧ l = m then 1 else 0
      | _, _ => 0⟩

/-- `CQMap.measure` (source lines 197-218): empty dimension gives the scalar
map with array 1; a single axis gives the indicator of `CQMap.measure1`;
otherwise `measure(dim[:1]) @ measure(dim[1:])`. -/
def CQMap.measure : List Nat → Bool → CQMap
  | [], _ => ⟨CQ.unit, CQ.unit, fun _ _ => 1⟩
  | [d], destructive => CQMap.measure1 d destructive
  | d :: rest, destructive =>
    (CQMap.measure1 d destructive).tensor (CQMap.measure rest destructive)

/-- `CQMap.encode` (source lines 220-222): the dagger of measurement. -/
def CQMap.encode (dim : List Nat) (constructive : Bool) : CQMap :=
  (CQMap.measure dim constructive).dagger

/-- `CQMap.pure` (source lines 224-227). -/
def CQMap.pure (t : Tensor) : CQMap :=
  ⟨CQ.Q t.dom, CQ.Q t.cod, (t.conjugate.tensorMul t).array⟩

/-- `CQMap.classical` (source lines 229-231). -/
def CQMap.classical (t : Tensor) : CQMap :=
  ⟨CQ.C t.dom, CQ.C t.cod, t.array⟩

/-- `CQMap.discard` (source lines 233-237): the outer product of an all-ones
vector over the classical dimension with the identity over the quantum
dimension. -/
def CQMap.discard (dom : CQ) : CQMap :=
  ⟨dom, CQ.unit, fun i _ =>
    if (i.drop dom.classical.length).take dom.quantum.length =
        (i.drop dom.classical.length).drop dom.quantum.length then 1 else 0⟩

/-- `CQMap.is_close` (source lines 239-242): equal `dom`/`cod` and
`np.allclose` of the arrays. -/
def CQMap.is_close (f g : CQMap) : Prop :=
  f.dom = g.dom ∧ f.cod = g.cod ∧
    ∀ i ∈ enumIdx f.dom.dims, ∀ j ∈ enumIdx f.cod.dims, (f.array i j).close (g.array i j)

instance (f g : CQMap) : Decidable (f.is_close g) := by
  unfold CQMap.is_close; infer_instance

/-- `CQMap.is_causal` (source lines 244-246): discarding the codomain after
the map is numerically close to discarding the domain.  The composition
`self >> self.discard(self.cod)` always passes the composability check, so it
is the unchecked contraction. -/
def CQMap.is_causal (f : CQMap) : Prop :=
  (CQMap.discard f.dom).is_close (f.thenU (CQMap.discard f.cod))

instance (f : CQMap) : Decidable f.is_causal := by
  unfold CQMap.is_causal; infer_instance

/-- Big-endian binary digits of `n` (empty for 0), with explicit fuel so that
the recursion is structural; `binDigitsAux n n` is the digit list of `n`,
mirroring Python's `'{:b}'.format(n)` for positive `n`. -/
def binDigitsAux : Nat → Nat → List Nat
  | 0, _ => []
  | fuel + 1, n => if n = 0 then [] else binDigitsAux fuel (n / 2) ++ [n % 2]

/-- `index2bitstring` (source lines 17-24): the big-endian binary expansion
of `i`, left-padded with zeros to width `length` by Python's format spec
`'{:0<length>b}'` (which never truncates: wider numbers keep all their
digits). -/
def index2bitstring (i length : Nat) : List Nat :=
  let s := if i = 0 then [0] else binDigitsAux i i
  List.replicate (length - s.length) 0 ++ s

/-- `bitstring2index` (source lines 26-33): `sum(value * 2 ** i for i, value
in enumerate(bitstring[::-1]))`. -/
def bitstring2index (bitstring : List Nat) : Nat :=
  (bitstring.reverse.enum.map (fun p => p.2 * 2 ^ p.1)).sum

/-- Value of a big-endian digit list (helper for reasoning about
`bitstring2index`). -/
def beVal : List Nat → Nat
  | [] => 0
  | b :: t => b * 2 ^ t.length + beVal t

/-- The two atomic circuit types `bit` and `qubit` (source line 915). -/
inductive BQ
  | bit
  | qubit
deriving DecidableEq

/-- Objects of circuits: the free monoid on `bit` and `qubit`
(`BitsAndQubits`, source lines 290-333). -/
abbrev BQTy := List BQ

/-- The box kinds of the circuit layer relevant to evaluation (source lines
644-733): pure boxes (classical or quantum, carrying their own array), swaps,
discard, mixed state, measurement and encoding. -/
inductive CBox
  | pureB (isClassical : Bool) (dom cod : BQTy) (array : List Nat → List Nat → CRat)
  | swapB (left right : BQ)
  | discardB (dom : BQTy)
  | mixedStateB (cod : BQTy)
  | measureB (n : Nat) (destructive : Bool)
  | encodeB (n : Nat) (constructive : Bool)

/-- Domain type of a box (source lines 644-733). -/
def CBox.dom : CBox → BQTy
  | .pureB _ d _ _ => d
  | .swapB l r => [l, r]
  | .discardB d => d
  | .mixedStateB _ => []
  | .measureB n _ => List.replicate n .qubit
  | .encodeB n c =>
    if c then List.replicate n .bit
    else List.replicate n .qubit ++ List.replicate n .bit

/-- Codomain type of a box (source lines 644-733). -/
def CBox.cod : CBox → BQTy
  | .pureB _ _ c _ => c
  | .swapB l r => [r, l]
  | .discardB _ => []
  | .mixedStateB c => c
  | .measureB n d =>
    if d then List.replicate n .bit
    else List.replicate n .qubit ++ List.replicate n .bit
  | .encodeB n _ => List.replicate n .qubit

/-- `is_mixed` of a box (source lines 654-656, 660-662, 666-668, 690-692):
pure boxes are not mixed, a swap is mixed iff its two sides differ, and
discard, mixed state, measure and encode are mixed. -/
def CBox.is_mixed : CBox → Bool
  | .pureB _ _ _ _ => false
  | .swapB l r => l ≠ r
  | _ => true

/-- A circuit diagram: identities, boxes and sequential/parallel composites
(`Circuit`, source lines 336-344; the free-category structure is modelled
from the spec, the `rigid`/`monoidal` modules being outside `src/`). -/
inductive Circ
  | idC (t : BQTy)
  | box (b : CBox)
  | seq (f g : Circ)
  | par (f g : Circ)

/-- Domain type of a circuit. -/
def Circ.dom : Circ → BQTy
  | .idC t => t
  | .box b => b.dom
  | .seq f _ => f.dom
  | .par f g => f.dom ++ g.dom

/-- Codomain type of a circuit. -/
def Circ.cod : Circ → BQTy
  | .idC t => t
  | .box b => b.cod
  | .seq _ g => g.cod
  | .par f g => f.cod ++ g.cod

/-- The boxes of a circuit, in diagram order. -/
def Circ.boxes : Circ → List CBox
  | .idC _ => []
  | .box b => [b]
  | .seq f g => f.boxes ++ g.boxes
  | .par f g => f.boxes ++ g.boxes

/-- `Circuit.is_mixed` (source lines 377-385): the domain contains both bits
and qubits, or some box is mixed. -/
def Circ.is_mixed (c : Circ) : Bool :=
  (c.dom.contains BQ.bit && c.dom.contains BQ.qubit) || c.boxes.any CBox.is_mixed

/-- The standard object map of the evaluation functor (source line 433):
`bit ↦ C(Dim(2))`, `qubit ↦ Q(Dim(2))`. -/
def obCQ : BQ → CQ
  | .bit => CQ.C [2]
  | .qubit => CQ.Q [2]

/-- Image of a circuit type under the standard object map, combined by the
`CQ.tensor` rule. -/
def obTyCQ (t : BQTy) : CQ :=
  t.foldr (fun x acc => (obCQ x).tensor acc) CQ.unit

/-- `CQMapFunctor.__call__` (source lines 268-287) together with the generic
functor recursion on composite diagrams (modelled from the spec: "recursively
combine sub-results via `then`/`tensor`, mirroring the diagram's own
composition structure"). -/
def evalCQ : Circ → CQMap
  | .idC t => CQMap.id (obTyCQ t)
  | .box (.pureB isClassical d c arr) =>
    if isClassical then ⟨obTyCQ d, obTyCQ c, arr⟩
    else CQMap.pure ⟨(obTyCQ d).quantum, (obTyCQ c).quantum, arr⟩
  | .box (.swapB l r) => CQMap.swap (obCQ l) (obCQ r)
  | .box (.discardB d) => CQMap.discard (obTyCQ d)
  | .box (.mixedStateB c) => (CQMap.discard (obTyCQ c)).dagger
  | .box (.measureB n d) =>
    CQMap.measure (obTyCQ (CBox.dom (.measureB n d))).quantum d
  | .box (.encodeB n c) =>
    CQMap.encode (obTyCQ (CBox.dom (.encodeB n c))).classical c
  | .seq f g => (evalCQ f).thenU (evalCQ g)
  | .par f g => (evalCQ f).tensor (evalCQ g)

/-- The object map of the plain array functor (source line 436): both `bit`
and `qubit` have size 2. -/
def obDims (t : BQTy) : List Nat := t.map (fun _ => 2)

/-- The plain array functor (source lines 435-437, with the generic functor
recursion modelled from the spec): each pure box is sent to its own array.
Mixed boxes have no array; they are unreachable in the branch of `eval` that
uses this functor, and are sent to a dummy scalar. -/
def evalT : Circ → Tensor
  | .idC t => Tensor.id (obDims t)
  | .box (.pureB _ d c arr) => ⟨obDims d, obDims c, arr⟩
  | .box (.swapB _ _) => Tensor.swap [2] [2]
  | .box _ => ⟨[], [], fun _ _ => 0⟩
  | .seq f g => (evalT f).comp (evalT g)
  | .par f g => (evalT f).tensorMul (evalT g)

/-- The result of evaluating a circuit without a backend: either a `CQMap`
or a plain tensor. -/
inductive EvalResult
  | cqmap (m : CQMap)
  | tensor (t : Tensor)

/-- `Circuit.eval` with `backend=None` (source lines 432-437): if `mixed` is
requested or the circuit is structurally mixed, apply the `CQMap` functor
with the standard object map; otherwise apply the plain array functor. -/
def Circ.eval (c : Circ) (mixed : Bool) : EvalResult :=
  if mixed || c.is_mixed then .cqmap (evalCQ c) else .tensor (evalT c)

/-- Row-major (C-order) flat position of a multi-index in a shape, numpy's
`ravel` convention. -/
def flatIdx : List Nat → List Nat → Nat
  | _ :: ds, x :: xs => x * ds.prod + flatIdx ds xs
  | _, _ => 0

/-- Modelled from the spec: `discopy.tensor.Tensor.cups` (the `tensor` module
is outside `src/`), the "classical identity-contraction": the identity matrix
on the product of the left dimensions, laid out as an effect over the legs
`left ++ right`. -/
def Tensor.cups (left right : List Nat) : Tensor :=
  ⟨left ++ right, [], fun i _ =>
    if flatIdx left (i.take left.length) = flatIdx right (i.drop left.length)
    then 1 else 0⟩

/-- `CQMap.cups` (source lines 248-252): the classical cup lifted by
`classical` in parallel with the quantum cup lifted by `pure`. -/
def CQMap.cups (left right : CQ) : CQMap :=
  (CQMap.classical (Tensor.cups left.classical right.classical)).tensor
    (CQMap.pure (Tensor.cups left.quantum right.quantum))

/-- `CQMap.caps` (source lines 254-255): the dagger of `cups`. -/
def CQMap.caps (left right : CQ) : CQMap :=
  (CQMap.cups left right).dagger

/-- A concrete classical-to-quantum map, used to instantiate theorems with
hypotheses at concrete inputs. -/
def sampleF : CQMap :=
  ⟨CQ.C [2], CQ.Q [2], fun i j => (beVal i : CRat) + 2 * (beVal j : CRat) + 1⟩

/-- A concrete quantum-to-classical map, used to instantiate theorems with
hypotheses at concrete inputs. -/
def sampleG : CQMap :=
  ⟨CQ.Q [2], CQ.C [2], fun i j => (beVal i : CRat) + 3 * (beVal j : CRat) + 2⟩

/-! ### Index enumeration lemmas -/

theorem mem_enumIdx {ds is : List Nat} : is ∈ enumIdx ds ↔ List.Forall₂ (· < ·) is ds := by
  induction ds generalizing is with
  | nil =>
    cases is with
    | nil => simp [enumIdx]
    | cons a t => simp [enumIdx]
  | cons d ds ih =>
    cases is with
    | nil => simp [enumIdx]
    | cons a t =>
      simp only [enumIdx, List.mem_flatMap, List.mem_map, List.mem_range,
        List.forall₂_cons, ← ih]
      constructor
      · rintro ⟨i, hi, x, hx, hcons⟩
        obtain ⟨rfl, rfl⟩ : i = a ∧ x = t := by
          refine ⟨?_, ?_⟩ <;> injection hcons
        exact ⟨hi, hx⟩
      · rintro ⟨ha, ht⟩
        exact ⟨a, ha, t, ht, rfl⟩

theorem enumIdx_nodup (ds : List Nat) : (enumIdx ds).Nodup := by
  induction ds with
  | nil => simp [enumIdx]
  | cons d ds ih =>
    simp only [enumIdx]
    refine List.nodup_flatMap.2 ⟨fun i _ => ih.map ?_, ?_⟩
    · intro x y h; injection h
    · refine (List.nodup_range d).imp ?_
      intro i j hij
      intro a ha hb
      simp only [List.mem_map] at ha hb
      obtain ⟨x, _, rfl⟩ := ha
      obtain ⟨y, _, h⟩ := hb
      apply hij
      injection h with h1 _
      exact h1.symm

theorem sumIdx_nil (F : List Nat → CRat) : sumIdx [] F = F [] := by
  simp [sumIdx, enumIdx]

theorem sumIdx_cons (d : Nat) (ds : List Nat) (F : List Nat → CRat) :
    sumIdx (d :: ds) F
      = ((List.range d).map (fun i => sumIdx ds (fun is => F (i :: is)))).sum := by
  unfold sumIdx
  rw [show enumIdx (d :: ds)
      = (List.range d).flatMap (fun i => (enumIdx ds).map (fun is => i :: is)) from rfl]
  rw [List.map_flatMap, List.flatMap_def, List.sum_flatten]
  congr 1
  rw [List.map_map]
  apply List.map_congr_left
  intro i _
  simp only [Function.comp_apply, List.map_map]
  rfl

theorem sumIdx_congr {ds : List Nat} {F G : List Nat → CRat}
    (h : ∀ i, List.Forall₂ (· < ·) i ds → F i = G i) : sumIdx ds F = sumIdx ds G := by
  unfold sumIdx
  congr 1
  apply List.map_congr_left
  intro i hi
  exact h i (mem_enumIdx.1 hi)

theorem listSum_delta {α : Type} [DecidableEq α] {l : List α} (hl : l.Nodup) {v : α}
    (hv : v ∈ l) (G : α → CRat) :
    (l.map (fun x => if x = v then G x else 0)).sum = G v := by
  induction l with
  | nil => cases hv
  | cons a t ih =>
    simp only [List.map_cons, List.sum_cons]
    rcases List.mem_cons.1 hv with rfl | hvt
    · rw [if_pos rfl]
      have : (t.map (fun x => if x = v then G x else 0)).sum = 0 := by
        apply List.sum_eq_zero
        intro x hx
        simp only [List.mem_map] at hx
        obtain ⟨y, hy, rfl⟩ := hx
        rw [if_neg]
        intro h
        exact (List.nodup_cons.1 hl).1 (h ▸ hy)
      rw [this, add_zero]
    · rw [if_neg, ih (List.nodup_cons.1 hl).2 hvt, zero_add]
      intro h
      exact (List.nodup_cons.1 hl).1 (h ▸ hvt)

theorem sumIdx_delta {ds v : List Nat} (hv : List.Forall₂ (· < ·) v ds)
    (G : List Nat → CRat) :
    sumIdx ds (fun j => if j = v then G j else 0) = G v :=
  listSum_delta (enumIdx_nodup ds) (mem_enumIdx.2 hv) G

theorem sumIdx_append (a b : List Nat) (F : List Nat → CRat) :
    sumIdx (a ++ b) F = sumIdx a (fun i => sumIdx b (fun j => F (i ++ j))) := by
  induction a generalizing F with
  | nil => simp [sumIdx_nil]
  | cons d t ih =>
    rw [List.cons_append, sumIdx_cons, sumIdx_cons]
    congr 1
    apply List.map_congr_left
    intro i _
    rw [ih]
    rfl

theorem sumIdx_mul_left (ds : List Nat) (A : CRat) (F : List Nat → CRat) :
    sumIdx ds (fun j => A * F j) = A * sumIdx ds F := by
  unfold sumIdx
  rw [← List.sum_map_mul_left]

theorem sumIdx_mul_right (ds : List Nat) (A : CRat) (F : List Nat → CRat) :
    sumIdx ds (fun j => F j * A) = sumIdx ds F * A := by
  unfold sumIdx
  rw [← List.sum_map_mul_right]

/-! ### List and entry helpers -/

theorem take_append_len {α : Type} {l1 l2 : List α} {n : Nat} (h : l1.length = n) :
    (l1 ++ l2).take n = l1 := by
  subst h; exact List.take_left l1 l2

theorem drop_append_len {α : Type} {l1 l2 : List α} {n : Nat} (h : l1.length = n) :
    (l1 ++ l2).drop n = l2 := by
  subst h; exact List.drop_left l1 l2

theorem append_eq_append_len {α : Type} {a b c d : List α} (h : a.length = c.length) :
    a ++ b = c ++ d ↔ a = c ∧ b = d := by
  constructor
  · intro he; exact List.append_inj he h
  · rintro ⟨rfl, rfl⟩; rfl

theorem forall₂_lt_split {i a b : List Nat} (h : List.Forall₂ (· < ·) i (a ++ b)) :
    ∃ i1 i2, i = i1 ++ i2 ∧ List.Forall₂ (· < ·) i1 a ∧ List.Forall₂ (· < ·) i2 b :=
  ⟨i.take a.length, i.drop a.length, (List.take_append_drop _ _).symm,
    List.forall₂_take_append i a b h, List.forall₂_drop_append i a b h⟩

theorem idT_entry (d : List Nat) (i j : List Nat) :
    (Tensor.id d).array i j = if j = i then 1 else 0 := by
  simp only [Tensor.id]
  by_cases h : i = j
  · simp [h]
  · rw [if_neg h, if_neg (fun hh => h hh.symm)]

theorem tensorMul_entry (X Y : Tensor) {i1 i2 j1 j2 : List Nat}
    (hi : i1.length = X.dom.length) (hj : j1.length = X.cod.length) :
    (X.tensorMul Y).array (i1 ++ i2) (j1 ++ j2) = X.array i1 j1 * Y.array i2 j2 := by
  simp only [Tensor.tensorMul]
  rw [take_append_len hi, take_append_len hj, drop_append_len hi, drop_append_len hj]

theorem triple_entry (A B C : Tensor) (i1 i2 i3 j1 j2 j3 : List Nat)
    (h1 : i1.length = A.dom.length) (h2 : i2.length = B.dom.length)
    (h3 : j1.length = A.cod.length) (h4 : j2.length = B.cod.length) :
    ((A.tensorMul B).tensorMul C).array (i1 ++ i2 ++ i3) (j1 ++ j2 ++ j3)
      = A.array i1 j1 * (B.array i2 j2 * C.array i3 j3) := by
  have hi : (i1 ++ i2).length = (A.tensorMul B).dom.length := by
    simp [Tensor.tensorMul, h1, h2]
  have hj : (j1 ++ j2).length = (A.tensorMul B).cod.length := by
    simp [Tensor.tensorMul, h3, h4]
  rw [tensorMul_entry (A.tensorMul B) C hi hj, tensorMul_entry A B h1 h3, mul_assoc]

theorem swapT_entry (Y Z : List Nat) {y z b c : List Nat}
    (hy : y.length = Y.length) (hz : z.length = Z.length) (hb : b.length = Z.length) :
    (Tensor.swap Y Z).array (y ++ z) (b ++ c) = if b = z ∧ c = y then 1 else 0 := by
  simp only [Tensor.swap]
  rw [drop_append_len hy, take_append_len hy]
  simp only [append_eq_append_len (hb.trans hz.symm)]

theorem layer_entry (X Y Z W : List Nat) {x y z w a b c d : List Nat}
    (hx : x.length = X.length) (hy : y.length = Y.length) (hz : z.length = Z.length)
    (ha : a.length = X.length) (hb : b.length = Z.length) (hc : c.length = Y.length) :
    (layer X Y Z W).array (x ++ y ++ z ++ w) (a ++ b ++ c ++ d)
      = (if a = x then 1 else 0) *
          ((if b = z ∧ c = y then 1 else 0) * (if d = w then 1 else 0)) := by
  rw [show x ++ y ++ z ++ w = x ++ (y ++ z) ++ w by simp [List.append_assoc]]
  rw [show a ++ b ++ c ++ d = a ++ (b ++ c) ++ d by simp [List.append_assoc]]
  have e := triple_entry (Tensor.id X) (Tensor.swap Y Z) (Tensor.id W)
    x (y ++ z) w a (b ++ c) d
    (by simpa [Tensor.id] using hx)
    (by simp [Tensor.swap, hy, hz])
    (by simpa [Tensor.id] using ha)
    (by simp [Tensor.swap, hb, hc])
  rw [show layer X Y Z W = (((Tensor.id X).tensorMul (Tensor.swap Y Z)).tensorMul
    (Tensor.id W)) from rfl, e]
  rw [idT_entry, idT_entry, swapT_entry Y Z hy hz hb]

theorem ite_eq_symm {α : Type} [DecidableEq α] (u v : α) (A B : CRat) :
    (if u = v then A else B) = if v = u then A else B := by
  by_cases h : u = v
  · rw [if_pos h, if_pos h.symm]
  · rw [if_neg h, if_neg (fun hh => h hh.symm)]

theorem ite_and_symm {α : Type} [DecidableEq α] (u v p q : List α) (A B : CRat) :
    (if u = v ∧ p = q then A else B) = if v = u ∧ q = p then A else B := by
  by_cases h : u = v ∧ p = q
  · rw [if_pos h, if_pos ⟨h.1.symm, h.2.symm⟩]
  · rw [if_neg h, if_neg (fun hh => h ⟨hh.1.symm, hh.2.symm⟩)]

theorem layer_entry_flip (X Y Z W : List Nat) {x y z w a b c d : List Nat}
    (hx : x.length = X.length) (hy : y.length = Y.length) (hz : z.length = Z.length)
    (ha : a.length = X.length) (hb : b.length = Z.length) (hc : c.length = Y.length) :
    (layer X Y Z W).array (x ++ y ++ z ++ w) (a ++ b ++ c ++ d)
      = (if x = a then 1 else 0) *
          ((if z = b ∧ y = c then 1 else 0) * (if w = d then 1 else 0)) := by
  rw [layer_entry X Y Z W hx hy hz ha hb hc]
  rw [ite_eq_symm a x, ite_and_symm b z c y, ite_eq_symm d w]

theorem comp_layer_left (X Y Z W : List Nat) (T : Tensor) (k : List Nat)
    {x y z w : List Nat}
    (hx : List.Forall₂ (· < ·) x X) (hy : List.Forall₂ (· < ·) y Y)
    (hz : List.Forall₂ (· < ·) z Z) (hw : List.Forall₂ (· < ·) w W) :
    ((layer X Y Z W).comp T).array (x ++ y ++ z ++ w) k
      = T.array (x ++ z ++ y ++ w) k := by
  have hcod : (layer X Y Z W).cod = X ++ Z ++ Y ++ W := by
    simp [layer, Tensor.tensorMul, Tensor.id, Tensor.swap, List.append_assoc]
  show sumIdx (layer X Y Z W).cod
      (fun j => (layer X Y Z W).array (x ++ y ++ z ++ w) j * T.array j k) = _
  rw [hcod]
  have hv : List.Forall₂ (· < ·) (x ++ z ++ y ++ w) (X ++ Z ++ Y ++ W) :=
    List.rel_append (List.rel_append (List.rel_append hx hz) hy) hw
  rw [← sumIdx_delta hv (fun j => T.array j k)]
  apply sumIdx_congr
  intro j hj
  obtain ⟨j123, j4, rfl, hj123, hj4⟩ := forall₂_lt_split hj
  obtain ⟨j12, j3, rfl, hj12, hj3⟩ := forall₂_lt_split hj123
  obtain ⟨j1, j2, rfl, hj1, hj2⟩ := forall₂_lt_split hj12
  rw [layer_entry X Y Z W hx.length_eq hy.length_eq hz.length_eq
    (hj1.length_eq.trans hx.length_eq.symm |>.trans hx.length_eq)
    (hj2.length_eq.trans hz.length_eq.symm |>.trans hz.length_eq)
    (hj3.length_eq.trans hy.length_eq.symm |>.trans hy.length_eq)]
  simp only [append_eq_append_len (show (j1 ++ j2 ++ j3).length = (x ++ z ++ y).length by
      simp [hj1.length_eq, hj2.length_eq, hj3.length_eq,
        hx.length_eq, hy.length_eq, hz.length_eq]),
    append_eq_append_len (show (j1 ++ j2).length = (x ++ z).length by
      simp [hj1.length_eq, hj2.length_eq, hx.length_eq, hz.length_eq]),
    append_eq_append_len (hj1.length_eq.trans hx.length_eq.symm)]
  by_cases h1 : j1 = x <;> by_cases h2 : j2 = z <;> by_cases h3 : j3 = y <;>
    by_cases h4 : j4 = w <;> simp [h1, h2, h3, h4]

theorem comp_layer_right (X Y Z W : List Nat) (T : Tensor)
    (hT : T.cod = X ++ Y ++ Z ++ W) (i : List Nat) {a b c d : List Nat}
    (ha : List.Forall₂ (· < ·) a X) (hb : List.Forall₂ (· < ·) b Z)
    (hc : List.Forall₂ (· < ·) c Y) (hd : List.Forall₂ (· < ·) d W) :
    (T.comp (layer X Y Z W)).array i (a ++ b ++ c ++ d)
      = T.array i (a ++ c ++ b ++ d) := by
  show sumIdx T.cod
      (fun j => T.array i j * (layer X Y Z W).array j (a ++ b ++ c ++ d)) = _
  rw [hT]
  have hv : List.Forall₂ (· < ·) (a ++ c ++ b ++ d) (X ++ Y ++ Z ++ W) :=
    List.rel_append (List.rel_append (List.rel_append ha hc) hb) hd
  rw [← sumIdx_delta hv (fun j => T.array i j)]
  apply sumIdx_congr
  intro j hj
  obtain ⟨j123, j4, rfl, hj123, hj4⟩ := forall₂_lt_split hj
  obtain ⟨j12, j3, rfl, hj12, hj3⟩ := forall₂_lt_split hj123
  obtain ⟨j1, j2, rfl, hj1, hj2⟩ := forall₂_lt_split hj12
  rw [layer_entry_flip X Y Z W hj1.length_eq hj2.length_eq hj3.length_eq
    ha.length_eq hb.length_eq hc.length_eq]
  simp only [append_eq_append_len (show (j1 ++ j2 ++ j3).length = (a ++ c ++ b).length by
      simp [hj1.length_eq, hj2.length_eq, hj3.length_eq,
        ha.length_eq, hb.length_eq, hc.length_eq]),
    append_eq_append_len (show (j1 ++ j2).length = (a ++ c).length by
      simp [hj1.length_eq, hj2.length_eq, ha.length_eq, hc.length_eq]),
    append_eq_append_len (hj1.length_eq.trans ha.length_eq.symm)]
  by_cases h1 : j1 = a <;> by_cases h2 : j2 = c <;> by_cases h3 : j3 = b <;>
    by_cases h4 : j4 = d <;> simp [h1, h2, h3, h4]

theorem tensor_entry (f g : CQMap)
    {ic0 ic1 ik0 ik1 ib0 ib1 jc0 jc1 jk0 jk1 jb0 jb1 : List Nat}
    (h1 : List.Forall₂ (· < ·) ic0 f.dom.classical)
    (h2 : List.Forall₂ (· < ·) ic1 g.dom.classical)
    (h3 : List.Forall₂ (· < ·) ik0 f.dom.quantum)
    (h4 : List.Forall₂ (· < ·) ik1 g.dom.quantum)
    (h5 : List.Forall₂ (· < ·) ib0 f.dom.quantum)
    (h6 : List.Forall₂ (· < ·) ib1 g.dom.quantum)
    (h7 : List.Forall₂ (· < ·) jc0 f.cod.classical)
    (h8 : List.Forall₂ (· < ·) jc1 g.cod.classical)
    (h9 : List.Forall₂ (· < ·) jk0 f.cod.quantum)
    (h10 : List.Forall₂ (· < ·) jk1 g.cod.quantum)
    (h11 : List.Forall₂ (· < ·) jb0 f.cod.quantum)
    (h12 : List.Forall₂ (· < ·) jb1 g.cod.quantum) :
    (f.tensor g).array (ic0 ++ ic1 ++ ik0 ++ ik1 ++ ib0 ++ ib1)
        (jc0 ++ jc1 ++ jk0 ++ jk1 ++ jb0 ++ jb1)
      = f.array (ic0 ++ ik0 ++ ib0) (jc0 ++ jk0 ++ jb0) *
          g.array (ic1 ++ ik1 ++ ib1) (jc1 ++ jk1 ++ jb1) := by
  show (((((layer (f.dom.classical ++ g.dom.classical ++ f.dom.quantum)
        g.dom.quantum f.dom.quantum g.dom.quantum).comp
      (layer f.dom.classical g.dom.classical (f.dom.quantum ++ f.dom.quantum)
        (g.dom.quantum ++ g.dom.quantum))).comp
      (f.data.tensorMul g.data)).comp
      (layer f.cod.classical (f.cod.quantum ++ f.cod.quantum) g.cod.classical
        (g.cod.quantum ++ g.cod.quantum))).comp
      (layer (f.cod.classical ++ g.cod.classical ++ f.cod.quantum)
        f.cod.quantum g.cod.quantum g.cod.quantum)).array
      (ic0 ++ ic1 ++ ik0 ++ ik1 ++ ib0 ++ ib1)
      (jc0 ++ jc1 ++ jk0 ++ jk1 ++ jb0 ++ jb1) = _
  rw [comp_layer_right (f.cod.classical ++ g.cod.classical ++ f.cod.quantum)
    f.cod.quantum g.cod.quantum g.cod.quantum _
    (by simp [layer, Tensor.comp, Tensor.tensorMul, Tensor.id, Tensor.swap,
      CQMap.data, CQ.dims, List.append_assoc])
    _ (List.rel_append (List.rel_append h7 h8) h9) h10 h11 h12]
  rw [show jc0 ++ jc1 ++ jk0 ++ jb0 ++ jk1 ++ jb1
      = jc0 ++ jc1 ++ (jk0 ++ jb0) ++ (jk1 ++ jb1) by simp [List.append_assoc]]
  rw [comp_layer_right f.cod.classical (f.cod.quantum ++ f.cod.quantum)
    g.cod.classical (g.cod.quantum ++ g.cod.quantum) _
    (by simp [Tensor.comp, Tensor.tensorMul, CQMap.data, CQ.dims, List.append_assoc])
    _ h7 h8 (List.rel_append h9 h11) (List.rel_append h10 h12)]
  have step3 : ∀ j, ((layer (f.dom.classical ++ g.dom.classical ++ f.dom.quantum)
        g.dom.quantum f.dom.quantum g.dom.quantum).comp
      (layer f.dom.classical g.dom.classical (f.dom.quantum ++ f.dom.quantum)
        (g.dom.quantum ++ g.dom.quantum))).array
      (ic0 ++ ic1 ++ ik0 ++ ik1 ++ ib0 ++ ib1) j
      = (layer f.dom.classical g.dom.classical (f.dom.quantum ++ f.dom.quantum)
        (g.dom.quantum ++ g.dom.quantum)).array
      (ic0 ++ ic1 ++ ik0 ++ ib0 ++ ik1 ++ ib1) j := by
    intro j
    exact comp_layer_left (f.dom.classical ++ g.dom.classical ++ f.dom.quantum)
      g.dom.quantum f.dom.quantum g.dom.quantum _ j
      (List.rel_append (List.rel_append h1 h2) h3) h4 h5 h6
  calc (((layer (f.dom.classical ++ g.dom.classical ++ f.dom.quantum)
          g.dom.quantum f.dom.quantum g.dom.quantum).comp
        (layer f.dom.classical g.dom.classical (f.dom.quantum ++ f.dom.quantum)
          (g.dom.quantum ++ g.dom.quantum))).comp
        (f.data.tensorMul g.data)).array
        (ic0 ++ ic1 ++ ik0 ++ ik1 ++ ib0 ++ ib1)
        (jc0 ++ (jk0 ++ jb0) ++ jc1 ++ (jk1 ++ jb1))
      = sumIdx (layer f.dom.classical g.dom.classical (f.dom.quantum ++ f.dom.quantum)
          (g.dom.quantum ++ g.dom.quantum)).cod
        (fun j => (layer f.dom.classical g.dom.classical
            (f.dom.quantum ++ f.dom.quantum) (g.dom.quantum ++ g.dom.quantum)).array
            (ic0 ++ ic1 ++ ik0 ++ ib0 ++ ik1 ++ ib1) j *
          (f.data.tensorMul g.data).array j
            (jc0 ++ (jk0 ++ jb0) ++ jc1 ++ (jk1 ++ jb1))) := by
        apply sumIdx_congr
        intro j _
        rw [step3 j]
    _ = ((layer f.dom.classical g.dom.classical (f.dom.quantum ++ f.dom.quantum)
          (g.dom.quantum ++ g.dom.quantum)).comp (f.data.tensorMul g.data)).array
        (ic0 ++ ic1 ++ ik0 ++ ib0 ++ ik1 ++ ib1)
        (jc0 ++ (jk0 ++ jb0) ++ jc1 ++ (jk1 ++ jb1)) := rfl
    _ = f.array (ic0 ++ ik0 ++ ib0) (jc0 ++ jk0 ++ jb0) *
          g.array (ic1 ++ ik1 ++ ib1) (jc1 ++ jk1 ++ jb1) := by
        rw [show ic0 ++ ic1 ++ ik0 ++ ib0 ++ ik1 ++ ib1
            = ic0 ++ ic1 ++ (ik0 ++ ib0) ++ (ik1 ++ ib1) by simp [List.append_assoc]]
        rw [comp_layer_left f.dom.classical g.dom.classical
          (f.dom.quantum ++ f.dom.quantum) (g.dom.quantum ++ g.dom.quantum) _ _
          h1 h2 (List.rel_append h3 h5) (List.rel_append h4 h6)]
        rw [show ic0 ++ (ik0 ++ ib0) ++ ic1 ++ (ik1 ++ ib1)
            = ic0 ++ ik0 ++ ib0 ++ (ic1 ++ ik1 ++ ib1) by simp [List.append_assoc]]
        rw [show jc0 ++ (jk0 ++ jb0) ++ jc1 ++ (jk1 ++ jb1)
            = jc0 ++ jk0 ++ jb0 ++ (jc1 ++ jk1 ++ jb1) by simp [List.append_assoc]]
        rw [tensorMul_entry f.data g.data
          (by simp [CQMap.data, CQ.dims, h1.length_eq, h3.length_eq, h5.length_eq])
          (by simp [CQMap.data, CQ.dims, h7.length_eq, h9.length_eq, h11.length_eq])]
        rfl

/-! ### Scalar lemmas -/

theorem CRat.zero_re : (0 : CRat).re = 0 := rfl

theorem CRat.zero_im : (0 : CRat).im = 0 := rfl

theorem CRat.close_of_eq {a b : CRat} (h : a = b) : a.close b := by
  subst h
  show (a - a).normSq * 10 ^ 10 ≤ 1
  simp [sub_self, CRat.normSq, CRat.zero_re, CRat.zero_im]

theorem CRat.eq_of_close {a b : CRat} (h : a.close b) : a = b := by
  have hsq : (a - b).normSq = 0 := by
    have h0 : 0 ≤ (a - b).normSq := by
      have := mul_self_nonneg (a - b).re
      have := mul_self_nonneg (a - b).im
      unfold CRat.normSq; omega
    by_contra hne
    have h1 : 1 ≤ (a - b).normSq := by omega
    have : (10 : ℤ) ^ 10 ≤ (a - b).normSq * 10 ^ 10 := by nlinarith
    have := h
    unfold CRat.close at this
    omega
  have hre : (a - b).re = 0 ∧ (a - b).im = 0 := by
    have h1 := mul_self_nonneg (a - b).re
    have h2 := mul_self_nonneg (a - b).im
    unfold CRat.normSq at hsq
    constructor <;> nlinarith
  have : a - b = 0 := by
    ext
    · exact hre.1
    · exact hre.2
  linear_combination this

/-! ### Further sum lemmas -/

theorem listSum_add {α : Type} (l : List α) (F G : α → CRat) :
    (l.map (fun x => F x + G x)).sum = (l.map F).sum + (l.map G).sum := by
  induction l with
  | nil => simp
  | cons a t ih => simp [ih]; ring

theorem sumIdx_zero (ds : List Nat) : sumIdx ds (fun _ => (0 : CRat)) = 0 := by
  unfold sumIdx
  apply List.sum_eq_zero
  intro x hx
  simp only [List.mem_map] at hx
  obtain ⟨y, _, rfl⟩ := hx
  rfl

theorem sumIdx_comm (a b : List Nat) (F : List Nat → List Nat → CRat) :
    sumIdx a (fun x => sumIdx b (fun y => F x y))
      = sumIdx b (fun y => sumIdx a (fun x => F x y)) := by
  unfold sumIdx
  induction enumIdx a with
  | nil =>
    simp only [List.map_nil, List.sum_nil]
    exact (List.sum_eq_zero (by simp)).symm
  | cons x t ih =>
    simp only [List.map_cons, List.sum_cons, ih]
    rw [← listSum_add]

theorem sumIdx_mul_sumIdx (a b : List Nat) (F G : List Nat → CRat) :
    sumIdx a F * sumIdx b G = sumIdx a (fun x => sumIdx b (fun y => F x * G y)) := by
  rw [show sumIdx a (fun x => sumIdx b (fun y => F x * G y))
      = sumIdx a (fun x => F x * sumIdx b G) by
    apply sumIdx_congr
    intro x _
    rw [sumIdx_mul_left]]
  rw [sumIdx_mul_right]

/-! ### Entry lemmas for the `CQMap` constructors -/

theorem discard_entry (A : CQ) {ic ik ib : List Nat} (j : List Nat)
    (hic : ic.length = A.classical.length) (hik : ik.length = A.quantum.length) :
    (CQMap.discard A).array (ic ++ ik ++ ib) j = if ik = ib then 1 else 0 := by
  show (if ((ic ++ ik ++ ib).drop A.classical.length).take A.quantum.length
      = ((ic ++ ik ++ ib).drop A.classical.length).drop A.quantum.length
    then 1 else 0) = _
  rw [show ic ++ ik ++ ib = ic ++ (ik ++ ib) from List.append_assoc ic ik ib]
  rw [drop_append_len hic, take_append_len hik, drop_append_len hik]

theorem swapCQ_entry (L R : CQ) {c1 c2 k1 k2 b1 b2 jc1 jc2 jk1 jk2 jb1 jb2 : List Nat}
    (hc1 : c1.length = L.classical.length) (hc2 : c2.length = R.classical.length)
    (hk1 : k1.length = L.quantum.length) (hk2 : k2.length = R.quantum.length)
    (hb1 : b1.length = L.quantum.length) (hb2 : b2.length = R.quantum.length)
    (hjc1 : jc1.length = R.classical.length) (hjc2 : jc2.length = L.classical.length)
    (hjk1 : jk1.length = R.quantum.length) (hjk2 : jk2.length = L.quantum.length)
    (hjb1 : jb1.length = R.quantum.length) :
    (CQMap.swap L R).array (c1 ++ c2 ++ (k1 ++ k2) ++ (b1 ++ b2))
        (jc1 ++ jc2 ++ (jk1 ++ jk2) ++ (jb1 ++ jb2))
      = (if jc1 = c2 ∧ jc2 = c1 then 1 else 0) *
          ((if jk1 = k2 ∧ jk2 = k1 then 1 else 0) *
            (if jb1 = b2 ∧ jb2 = b1 then 1 else 0)) := by
  show (((Tensor.swap L.classical R.classical).tensorMul
      (Tensor.swap L.quantum R.quantum)).tensorMul
    (Tensor.swap L.quantum R.quantum)).array _ _ = _
  rw [triple_entry (Tensor.swap L.classical R.classical)
    (Tensor.swap L.quantum R.quantum) (Tensor.swap L.quantum R.quantum)
    (c1 ++ c2) (k1 ++ k2) (b1 ++ b2) (jc1 ++ jc2) (jk1 ++ jk2) (jb1 ++ jb2)
    (by simp [Tensor.swap, hc1, hc2]) (by simp [Tensor.swap, hk1, hk2])
    (by simp [Tensor.swap, hjc1, hjc2, Nat.add_comm])
    (by simp [Tensor.swap, hjk1, hjk2, Nat.add_comm])]
  rw [swapT_entry L.classical R.classical hc1 hc2 hjc1,
    swapT_entry L.quantum R.quantum hk1 hk2 hjk1,
    swapT_entry L.quantum R.quantum hb1 hb2 hjb1]

theorem swap_then_swap (A B : CQ) :
    ((CQMap.swap A B).thenU (CQMap.swap B A)).equiv (CQMap.id (A.tensor B)) := by
  refine ⟨rfl, rfl, ?_⟩
  intro i hi k hk
  rw [mem_enumIdx] at hi hk
  have hi' : List.Forall₂ (· < ·) i
      ((A.classical ++ B.classical) ++ (A.quantum ++ B.quantum) ++
        (A.quantum ++ B.quantum)) := hi
  have hk' : List.Forall₂ (· < ·) k
      ((A.classical ++ B.classical) ++ (A.quantum ++ B.quantum) ++
        (A.quantum ++ B.quantum)) := hk
  obtain ⟨i12, ibb, rfl, hi12, hibb⟩ := forall₂_lt_split hi'
  obtain ⟨icc, ikk, rfl, hicc, hikk⟩ := forall₂_lt_split hi12
  obtain ⟨c1, c2, rfl, hc1, hc2⟩ := forall₂_lt_split hicc
  obtain ⟨k1, k2, rfl, hk1, hk2⟩ := forall₂_lt_split hikk
  obtain ⟨b1, b2, rfl, hb1, hb2⟩ := forall₂_lt_split hibb
  obtain ⟨k12, kbb, rfl, hk12, hkbb⟩ := forall₂_lt_split hk'
  obtain ⟨kcc, kkk, rfl, hkcc, hkkk⟩ := forall₂_lt_split hk12
  obtain ⟨e1, e2, rfl, he1, he2⟩ := forall₂_lt_split hkcc
  obtain ⟨f1, f2, rfl, hf1, hf2⟩ := forall₂_lt_split hkkk
  obtain ⟨g1, g2, rfl, hg1, hg2⟩ := forall₂_lt_split hkbb
  show sumIdx ((CQMap.swap A B).data.cod)
      (fun j => (CQMap.swap A B).array (c1 ++ c2 ++ (k1 ++ k2) ++ (b1 ++ b2)) j *
        (CQMap.swap B A).array j (e1 ++ e2 ++ (f1 ++ f2) ++ (g1 ++ g2))) = _
  rw [show (CQMap.swap A B).data.cod
      = (B.classical ++ A.classical) ++ (B.quantum ++ A.quantum) ++
        (B.quantum ++ A.quantum) from rfl]
  have hv : List.Forall₂ (· < ·) (c2 ++ c1 ++ (k2 ++ k1) ++ (b2 ++ b1))
      ((B.classical ++ A.classical) ++ (B.quantum ++ A.quantum) ++
        (B.quantum ++ A.quantum)) :=
    List.rel_append (List.rel_append (List.rel_append hc2 hc1)
      (List.rel_append hk2 hk1)) (List.rel_append hb2 hb1)
  rw [show sumIdx
      ((B.classical ++ A.classical) ++ (B.quantum ++ A.quantum) ++
        (B.quantum ++ A.quantum))
      (fun j => (CQMap.swap A B).array (c1 ++ c2 ++ (k1 ++ k2) ++ (b1 ++ b2)) j *
        (CQMap.swap B A).array j (e1 ++ e2 ++ (f1 ++ f2) ++ (g1 ++ g2)))
    = sumIdx
      ((B.classical ++ A.classical) ++ (B.quantum ++ A.quantum) ++
        (B.quantum ++ A.quantum))
      (fun j => if j = c2 ++ c1 ++ (k2 ++ k1) ++ (b2 ++ b1)
        then (CQMap.swap B A).array j (e1 ++ e2 ++ (f1 ++ f2) ++ (g1 ++ g2)) else 0)
    from sumIdx_congr ?_]
  · rw [sumIdx_delta hv
      (fun j => (CQMap.swap B A).array j (e1 ++ e2 ++ (f1 ++ f2) ++ (g1 ++ g2)))]
    rw [swapCQ_entry B A hc2.length_eq hc1.length_eq hk2.length_eq hk1.length_eq
      hb2.length_eq hb1.length_eq he1.length_eq he2.length_eq hf1.length_eq
      hf2.length_eq hg1.length_eq]
    rw [show (CQMap.id (A.tensor B)).array (c1 ++ c2 ++ (k1 ++ k2) ++ (b1 ++ b2))
        (e1 ++ e2 ++ (f1 ++ f2) ++ (g1 ++ g2))
      = if e1 ++ e2 ++ (f1 ++ f2) ++ (g1 ++ g2)
          = c1 ++ c2 ++ (k1 ++ k2) ++ (b1 ++ b2) then 1 else 0
      from idT_entry ((A.tensor B).dims) (c1 ++ c2 ++ (k1 ++ k2) ++ (b1 ++ b2))
        (e1 ++ e2 ++ (f1 ++ f2) ++ (g1 ++ g2))]
    simp only [append_eq_append_len (show (e1 ++ e2 ++ (f1 ++ f2)).length
        = (c1 ++ c2 ++ (k1 ++ k2)).length by
      simp [he1.length_eq, he2.length_eq, hf1.length_eq, hf2.length_eq,
        hc1.length_eq, hc2.length_eq, hk1.length_eq, hk2.length_eq]),
      append_eq_append_len (show (e1 ++ e2).length = (c1 ++ c2).length by
        simp [he1.length_eq, he2.length_eq, hc1.length_eq, hc2.length_eq]),
      append_eq_append_len (he1.length_eq.trans hc1.length_eq.symm),
      append_eq_append_len (hf1.length_eq.trans hk1.length_eq.symm),
      append_eq_append_len (hg1.length_eq.trans hb1.length_eq.symm)]
    by_cases h1 : e1 = c1 <;> by_cases h2 : e2 = c2 <;> by_cases h3 : f1 = k1 <;>
      by_cases h4 : f2 = k2 <;> by_cases h5 : g1 = b1 <;> by_cases h6 : g2 = b2 <;>
      simp [h1, h2, h3, h4, h5, h6]
  · intro j hj
    obtain ⟨j12, jbb, rfl, hj12, hjbb⟩ := forall₂_lt_split hj
    obtain ⟨jcc, jkk, rfl, hjcc, hjkk⟩ := forall₂_lt_split hj12
    obtain ⟨p1, p2, rfl, hp1, hp2⟩ := forall₂_lt_split hjcc
    obtain ⟨q1, q2, rfl, hq1, hq2⟩ := forall₂_lt_split hjkk
    obtain ⟨r1, r2, rfl, hr1, hr2⟩ := forall₂_lt_split hjbb
    rw [swapCQ_entry A B hc1.length_eq hc2.length_eq hk1.length_eq hk2.length_eq
      hb1.length_eq hb2.length_eq hp1.length_eq hp2.length_eq hq1.length_eq
      hq2.length_eq hr1.length_eq]
    simp only [append_eq_append_len (show (p1 ++ p2 ++ (q1 ++ q2)).length
        = (c2 ++ c1 ++ (k2 ++ k1)).length by
      simp [hp1.length_eq, hp2.length_eq, hq1.length_eq, hq2.length_eq,
        hc1.length_eq, hc2.length_eq, hk1.length_eq, hk2.length_eq, Nat.add_comm]),
      append_eq_append_len (show (p1 ++ p2).length = (c2 ++ c1).length by
        simp [hp1.length_eq, hp2.length_eq, hc1.length_eq, hc2.length_eq,
          Nat.add_comm]),
      append_eq_append_len (hp1.length_eq.trans hc2.length_eq.symm),
      append_eq_append_len (hq1.length_eq.trans hk2.length_eq.symm),
      append_eq_append_len (hr1.length_eq.trans hb2.length_eq.symm)]
    by_cases h1 : p1 = c2 <;> by_cases h2 : p2 = c1 <;> by_cases h3 : q1 = k2 <;>
      by_cases h4 : q2 = k1 <;> by_cases h5 : r1 = b2 <;> by_cases h6 : r2 = b1 <;>
      simp [h1, h2, h3, h4, h5, h6]

/-! ### Causality of the constructors -/

theorem discard_causal (A : CQ) : (CQMap.discard A).is_causal := by
  refine ⟨rfl, rfl, ?_⟩
  intro i _ j _
  apply CRat.close_of_eq
  show (CQMap.discard A).array i j
      = sumIdx ((CQMap.discard A).data.cod)
        (fun m => (CQMap.discard A).array i m * (CQMap.discard CQ.unit).array m j)
  rw [show ((CQMap.discard A).data.cod) = ([] : List Nat) from rfl, sumIdx_nil]
  show (CQMap.discard A).array i j = (CQMap.discard A).array i [] * 1
  rw [mul_one]
  rfl

theorem swap_causal (A B : CQ) : (CQMap.swap A B).is_causal := by
  refine ⟨rfl, rfl, ?_⟩
  intro i hi j _
  apply CRat.close_of_eq
  rw [mem_enumIdx] at hi
  have hi' : List.Forall₂ (· < ·) i
      ((A.classical ++ B.classical) ++ (A.quantum ++ B.quantum) ++
        (A.quantum ++ B.quantum)) := hi
  obtain ⟨i12, ibb, rfl, hi12, hibb⟩ := forall₂_lt_split hi'
  obtain ⟨icc, ikk, rfl, hicc, hikk⟩ := forall₂_lt_split hi12
  obtain ⟨c1, c2, rfl, hc1, hc2⟩ := forall₂_lt_split hicc
  obtain ⟨k1, k2, rfl, hk1, hk2⟩ := forall₂_lt_split hikk
  obtain ⟨b1, b2, rfl, hb1, hb2⟩ := forall₂_lt_split hibb
  show (CQMap.discard (A.tensor B)).array (c1 ++ c2 ++ (k1 ++ k2) ++ (b1 ++ b2)) j
      = sumIdx ((CQMap.swap A B).data.cod)
        (fun m => (CQMap.swap A B).array (c1 ++ c2 ++ (k1 ++ k2) ++ (b1 ++ b2)) m *
          (CQMap.discard (B.tensor A)).array m j)
  rw [show (CQMap.swap A B).data.cod
      = (B.classical ++ A.classical) ++ (B.quantum ++ A.quantum) ++
        (B.quantum ++ A.quantum) from rfl]
  have hv : List.Forall₂ (· < ·) (c2 ++ c1 ++ (k2 ++ k1) ++ (b2 ++ b1))
      ((B.classical ++ A.classical) ++ (B.quantum ++ A.quantum) ++
        (B.quantum ++ A.quantum)) :=
    List.rel_append (List.rel_append (List.rel_append hc2 hc1)
      (List.rel_append hk2 hk1)) (List.rel_append hb2 hb1)
  rw [show sumIdx
      ((B.classical ++ A.classical) ++ (B.quantum ++ A.quantum) ++
        (B.quantum ++ A.quantum))
      (fun m => (CQMap.swap A B).array (c1 ++ c2 ++ (k1 ++ k2) ++ (b1 ++ b2)) m *
        (CQMap.discard (B.tensor A)).array m j)
    = sumIdx
      ((B.classical ++ A.classical) ++ (B.quantum ++ A.quantum) ++
        (B.quantum ++ A.quantum))
      (fun m => if m = c2 ++ c1 ++ (k2 ++ k1) ++ (b2 ++ b1)
        then (CQMap.discard (B.tensor A)).array m j else 0)
    from sumIdx_congr ?_]
  · rw [sumIdx_delta hv (fun m => (CQMap.discard (B.tensor A)).array m j)]
    rw [discard_entry (A.tensor B) j
      (by simp [CQ.tensor, hc1.length_eq, hc2.length_eq])
      (by simp [CQ.tensor, hk1.length_eq, hk2.length_eq])]
    rw [discard_entry (B.tensor A) j
      (by simp [CQ.tensor, hc1.length_eq, hc2.length_eq, Nat.add_comm])
      (by simp [CQ.tensor, hk1.length_eq, hk2.length_eq, Nat.add_comm])]
    simp only [append_eq_append_len (hk1.length_eq.trans hb1.length_eq.symm),
      append_eq_append_len (hk2.length_eq.trans hb2.length_eq.symm)]
    by_cases h1 : k1 = b1 <;> by_cases h2 : k2 = b2 <;> simp [h1, h2]
  · intro m hm
    obtain ⟨m12, mbb, rfl, hm12, hmbb⟩ := forall₂_lt_split hm
    obtain ⟨mcc, mkk, rfl, hmcc, hmkk⟩ := forall₂_lt_split hm12
    obtain ⟨p1, p2, rfl, hp1, hp2⟩ := forall₂_lt_split hmcc
    obtain ⟨q1, q2, rfl, hq1, hq2⟩ := forall₂_lt_split hmkk
    obtain ⟨r1, r2, rfl, hr1, hr2⟩ := forall₂_lt_split hmbb
    rw [swapCQ_entry A B hc1.length_eq hc2.length_eq hk1.length_eq hk2.length_eq
      hb1.length_eq hb2.length_eq hp1.length_eq hp2.length_eq hq1.length_eq
      hq2.length_eq hr1.length_eq]
    simp only [append_eq_append_len (show (p1 ++ p2 ++ (q1 ++ q2)).length
        = (c2 ++ c1 ++ (k2 ++ k1)).length by
      simp [hp1.length_eq, hp2.length_eq, hq1.length_eq, hq2.length_eq,
        hc1.length_eq, hc2.length_eq, hk1.length_eq, hk2.length_eq, Nat.add_comm]),
      append_eq_append_len (show (p1 ++ p2).length = (c2 ++ c1).length by
        simp [hp1.length_eq, hp2.length_eq, hc1.length_eq, hc2.length_eq,
          Nat.add_comm]),
      append_eq_append_len (hp1.length_eq.trans hc2.length_eq.symm),
      append_eq_append_len (hq1.length_eq.trans hk2.length_eq.symm),
      append_eq_append_len (hr1.length_eq.trans hb2.length_eq.symm)]
    by_cases h1 : p1 = c2 <;> by_cases h2 : p2 = c1 <;> by_cases h3 : q1 = k2 <;>
      by_cases h4 : q2 = k1 <;> by_cases h5 : r1 = b2 <;> by_cases h6 : r2 = b1 <;>
      simp [h1, h2, h3, h4, h5, h6]

theorem dims_C (dim : List Nat) : (CQ.C dim).dims = dim := by
  simp [CQ.dims, CQ.C]

theorem dims_Q (dim : List Nat) : (CQ.Q dim).dims = dim ++ dim := rfl

theorem measure1_dom (d : Nat) (t : Bool) : (CQMap.measure1 d t).dom = CQ.Q [d] := by
  cases t <;> rfl

theorem measure1_cod_t (d : Nat) : (CQMap.measure1 d true).cod = CQ.C [d] := rfl

theorem measure1_cod_f (d : Nat) :
    (CQMap.measure1 d false).cod = (CQ.C [d]).tensor (CQ.Q [d]) := rfl

theorem measure1_entry_t (d a b e : Nat) :
    (CQMap.measure1 d true).array [a, b] [e] = if a = b ∧ b = e then 1 else 0 := by
  simp [CQMap.measure1]

theorem measure1_entry_f (d a b e u v : Nat) :
    (CQMap.measure1 d false).array [a, b] [e, u, v]
      = if a = b ∧ b = e ∧ e = u ∧ u = v then 1 else 0 := by
  simp [CQMap.measure1]

theorem measure_dom (dim : List Nat) (t : Bool) :
    (CQMap.measure dim t).dom = CQ.Q dim := by
  induction dim with
  | nil => cases t <;> rfl
  | cons d rest ih =>
    cases rest with
    | nil => cases t <;> rfl
    | cons d2 r2 =>
      show ((CQMap.measure1 d t).tensor (CQMap.measure (d2 :: r2) t)).dom = _
      show (CQMap.measure1 d t).dom.tensor (CQMap.measure (d2 :: r2) t).dom = _
      rw [ih, measure1_dom]
      rfl

theorem measure_cod_t (dim : List Nat) :
    (CQMap.measure dim true).cod = CQ.C dim := by
  induction dim with
  | nil => rfl
  | cons d rest ih =>
    cases rest with
    | nil => rfl
    | cons d2 r2 =>
      show (CQMap.measure1 d true).cod.tensor (CQMap.measure (d2 :: r2) true).cod = _
      rw [ih, measure1_cod_t]
      rfl

theorem measure_cod_f (dim : List Nat) :
    (CQMap.measure dim false).cod = ⟨dim, dim⟩ := by
  induction dim with
  | nil => rfl
  | cons d rest ih =>
    cases rest with
    | nil => rfl
    | cons d2 r2 =>
      show (CQMap.measure1 d false).cod.tensor (CQMap.measure (d2 :: r2) false).cod = _
      rw [ih, measure1_cod_f]
      simp [CQ.tensor, CQ.C, CQ.Q]

theorem measure_entry_t (dim : List Nat) {k l c : List Nat}
    (hk : List.Forall₂ (· < ·) k dim) (hl : List.Forall₂ (· < ·) l dim)
    (hc : List.Forall₂ (· < ·) c dim) :
    (CQMap.measure dim true).array (k ++ l) c = if k = l ∧ l = c then 1 else 0 := by
  induction dim generalizing k l c with
  | nil =>
    cases hk; cases hl; cases hc
    simp [CQMap.measure]
  | cons d rest ih =>
    cases k with
    | nil => cases hk
    | cons a k' =>
    cases l with
    | nil => cases hl
    | cons b l' =>
    cases c with
    | nil => cases hc
    | cons e c' =>
    rw [List.forall₂_cons] at hk hl hc
    obtain ⟨hka, hkt⟩ := hk
    obtain ⟨hlb, hlt⟩ := hl
    obtain ⟨hce, hct⟩ := hc
    cases rest with
    | nil =>
      cases hkt; cases hlt; cases hct
      rw [show CQMap.measure [d] true = CQMap.measure1 d true from rfl]
      rw [show [a] ++ [b] = [a, b] from rfl, measure1_entry_t]
      by_cases h1 : a = b <;> by_cases h2 : b = e <;> simp [h1, h2]
    | cons d2 r2 =>
      rw [show CQMap.measure (d :: d2 :: r2) true
          = (CQMap.measure1 d true).tensor (CQMap.measure (d2 :: r2) true) from rfl]
      rw [show (a :: k') ++ (b :: l')
          = ([] : List Nat) ++ [] ++ [a] ++ k' ++ [b] ++ l' by simp]
      rw [show e :: c' = [e] ++ c' ++ ([] : List Nat) ++ [] ++ [] ++ [] by simp]
      rw [tensor_entry (CQMap.measure1 d true) (CQMap.measure (d2 :: r2) true)
        (by rw [measure1_dom]; exact List.Forall₂.nil)
        (by rw [measure_dom]; exact List.Forall₂.nil)
        (by rw [measure1_dom]; exact List.Forall₂.cons hka List.Forall₂.nil)
        (by rw [measure_dom]; exact hkt)
        (by rw [measure1_dom]; exact List.Forall₂.cons hlb List.Forall₂.nil)
        (by rw [measure_dom]; exact hlt)
        (by rw [measure1_cod_t]; exact List.Forall₂.cons hce List.Forall₂.nil)
        (by rw [measure_cod_t]; exact hct)
        (by rw [measure1_cod_t]; exact List.Forall₂.nil)
        (by rw [measure_cod_t]; exact List.Forall₂.nil)
        (by rw [measure1_cod_t]; exact List.Forall₂.nil)
        (by rw [measure_cod_t]; exact List.Forall₂.nil)]
      rw [show ([] : List Nat) ++ [a] ++ [b] = [a, b] by simp,
        show [e] ++ ([] : List Nat) ++ [] = [e] by simp,
        measure1_entry_t]
      rw [show ([] : List Nat) ++ k' ++ l' = k' ++ l' by simp,
        show c' ++ ([] : List Nat) ++ [] = c' by simp,
        ih hkt hlt hct]
      by_cases h1 : a = b <;> by_cases h2 : b = e <;> by_cases h3 : k' = l' <;>
        by_cases h4 : l' = c' <;> by_cases h5 : a = e <;> by_cases h6 : k' = c' <;>
        simp_all

theorem ite_mul_ite_prop (P Q : Prop) [Decidable P] [Decidable Q] :
    (if P then (1 : CRat) else 0) * (if Q then 1 else 0) = if P ∧ Q then 1 else 0 := by
  by_cases hP : P <;> by_cases hQ : Q <;> simp [hP, hQ]

theorem measure_entry_f (dim : List Nat) {k l c k2 l2 : List Nat}
    (hk : List.Forall₂ (· < ·) k dim) (hl : List.Forall₂ (· < ·) l dim)
    (hc : List.Forall₂ (· < ·) c dim) (hk2 : List.Forall₂ (· < ·) k2 dim)
    (hl2 : List.Forall₂ (· < ·) l2 dim) :
    (CQMap.measure dim false).array (k ++ l) (c ++ k2 ++ l2)
      = if k = l ∧ l = c ∧ c = k2 ∧ k2 = l2 then 1 else 0 := by
  induction dim generalizing k l c k2 l2 with
  | nil =>
    cases hk; cases hl; cases hc; cases hk2; cases hl2
    simp [CQMap.measure]
  | cons d rest ih =>
    cases k with
    | nil => cases hk
    | cons a k' =>
    cases l with
    | nil => cases hl
    | cons b l' =>
    cases c with
    | nil => cases hc
    | cons e c' =>
    cases k2 with
    | nil => cases hk2
    | cons u k2' =>
    cases l2 with
    | nil => cases hl2
    | cons v l2' =>
    rw [List.forall₂_cons] at hk hl hc hk2 hl2
    obtain ⟨hka, hkt⟩ := hk
    obtain ⟨hlb, hlt⟩ := hl
    obtain ⟨hce, hct⟩ := hc
    obtain ⟨hku, hk2t⟩ := hk2
    obtain ⟨hlv, hl2t⟩ := hl2
    cases rest with
    | nil =>
      cases hkt; cases hlt; cases hct; cases hk2t; cases hl2t
      rw [show CQMap.measure [d] false = CQMap.measure1 d false from rfl]
      rw [show ([a] ++ [b] : List Nat) = [a, b] from rfl,
        show ([e] ++ [u] ++ [v] : List Nat) = [e, u, v] from rfl, measure1_entry_f]
      by_cases h1 : a = b <;> by_cases h2 : b = e <;> by_cases h3 : e = u <;>
        by_cases h4 : u = v <;> simp [h1, h2, h3, h4]
    | cons d2 r2 =>
      rw [show CQMap.measure (d :: d2 :: r2) false
          = (CQMap.measure1 d false).tensor (CQMap.measure (d2 :: r2) false) from rfl]
      rw [show (a :: k') ++ (b :: l')
          = ([] : List Nat) ++ [] ++ [a] ++ k' ++ [b] ++ l' by simp]
      rw [show (e :: c') ++ (u :: k2') ++ (v :: l2')
          = [e] ++ c' ++ [u] ++ k2' ++ [v] ++ l2' by simp]
      rw [tensor_entry (CQMap.measure1 d false) (CQMap.measure (d2 :: r2) false)
        (by rw [measure1_dom]; exact List.Forall₂.nil)
        (by rw [measure_dom]; exact List.Forall₂.nil)
        (by rw [measure1_dom]; exact List.Forall₂.cons hka List.Forall₂.nil)
        (by rw [measure_dom]; exact hkt)
        (by rw [measure1_dom]; exact List.Forall₂.cons hlb List.Forall₂.nil)
        (by rw [measure_dom]; exact hlt)
        (by rw [measure1_cod_f]; exact List.Forall₂.cons hce List.Forall₂.nil)
        (by rw [measure_cod_f]; exact hct)
        (by rw [measure1_cod_f]; exact List.Forall₂.cons hku List.Forall₂.nil)
        (by rw [measure_cod_f]; exact hk2t)
        (by rw [measure1_cod_f]; exact List.Forall₂.cons hlv List.Forall₂.nil)
        (by rw [measure_cod_f]; exact hl2t)]
      rw [show ([] : List Nat) ++ [a] ++ [b] = [a, b] by simp,
        show ([e] ++ [u] ++ [v] : List Nat) = [e, u, v] from rfl,
        measure1_entry_f]
      rw [show ([] : List Nat) ++ k' ++ l' = k' ++ l' by simp, ih hkt hlt hct hk2t hl2t]
      rw [ite_mul_ite_prop]
      by_cases hL : (a = b ∧ b = e ∧ e = u ∧ u = v) ∧
          k' = l' ∧ l' = c' ∧ c' = k2' ∧ k2' = l2'
      · obtain ⟨⟨h1, h2, h3, h4⟩, h5, h6, h7, h8⟩ := hL
        subst h1; subst h2; subst h3; subst h4
        subst h5; subst h6; subst h7; subst h8
        simp
      · rw [if_neg hL, if_neg]
        intro hR
        apply hL
        obtain ⟨r1, r2, r3, r4⟩ := hR
        simp only [List.cons.injEq] at r1 r2 r3 r4
        exact ⟨⟨r1.1, r2.1, r3.1, r4.1⟩, r1.2, r2.2, r3.2, r4.2⟩

theorem ite_ite_and {P Q : Prop} [Decidable P] [Decidable Q] (x : CRat) :
    (if P then (if Q then x else 0) else 0) = if P ∧ Q then x else 0 := by
  by_cases hP : P <;> by_cases hQ : Q <;> simp [hP, hQ]

theorem ite_one_zero_congr {P Q : Prop} [Decidable P] [Decidable Q] (h : P ↔ Q) (x : CRat) :
    (if P then x else 0) = if Q then x else 0 := by
  by_cases hP : P
  · rw [if_pos hP, if_pos (h.1 hP)]
  · rw [if_neg hP, if_neg (fun hQ => hP (h.2 hQ))]

theorem discard_c_one (dim : List Nat) (i j : List Nat) (h : i.length = dim.length) :
    (CQMap.discard (CQ.C dim)).array i j = 1 := by
  show (if ((i.drop (CQ.C dim).classical.length)).take (CQ.C dim).quantum.length
      = ((i.drop (CQ.C dim).classical.length)).drop (CQ.C dim).quantum.length
    then 1 else 0) = 1
  have hd : i.drop (CQ.C dim).classical.length = [] := by
    show i.drop dim.length = []
    rw [← h]
    exact List.drop_length i
  rw [hd]
  rfl

theorem measure_causal (dim : List Nat) (t : Bool) : (CQMap.measure dim t).is_causal := by
  refine ⟨rfl, rfl, ?_⟩
  intro i hi j hj
  apply CRat.close_of_eq
  have hi2 : List.Forall₂ (· < ·) i (dim ++ dim) := by
    have h := mem_enumIdx.1 hi
    rw [measure_dom dim t] at h
    exact h
  obtain ⟨k, l, rfl, hk, hl⟩ := forall₂_lt_split hi2
  show (CQMap.discard ((CQMap.measure dim t).dom)).array (k ++ l) j
      = sumIdx ((CQMap.measure dim t).cod.dims)
        (fun m => (CQMap.measure dim t).array (k ++ l) m *
          (CQMap.discard ((CQMap.measure dim t).cod)).array m j)
  rw [measure_dom dim t]
  cases t with
  | true =>
    rw [measure_cod_t, dims_C]
    by_cases hkl : k = l
    · subst hkl
      rw [show sumIdx dim
          (fun m => (CQMap.measure dim true).array (k ++ k) m *
            (CQMap.discard (CQ.C dim)).array m j)
        = sumIdx dim (fun m => if m = k
            then (CQMap.discard (CQ.C dim)).array m j else 0) from sumIdx_congr ?_]
      · rw [sumIdx_delta hk (fun m => (CQMap.discard (CQ.C dim)).array m j)]
        rw [discard_c_one dim k j hk.length_eq]
        rw [show k ++ k = ([] : List Nat) ++ k ++ k by simp]
        rw [discard_entry (CQ.Q dim) j (by rfl) hk.length_eq]
        simp
      · intro m hm
        rw [measure_entry_t dim hk hk hm]
        have hkk : k = k ∧ k = m ↔ m = k := by
          constructor
          · rintro ⟨_, h⟩; exact h.symm
          · intro h; exact ⟨rfl, h.symm⟩
        rw [ite_one_zero_congr hkk]
        by_cases h : m = k <;> simp [h]
    · rw [show sumIdx dim
          (fun m => (CQMap.measure dim true).array (k ++ l) m *
            (CQMap.discard (CQ.C dim)).array m j)
        = sumIdx dim (fun _ => (0 : CRat)) from sumIdx_congr ?_]
      · rw [sumIdx_zero]
        rw [show k ++ l = ([] : List Nat) ++ k ++ l by simp]
        rw [discard_entry (CQ.Q dim) j (by rfl) hk.length_eq]
        simp [hkl]
      · intro m hm
        rw [measure_entry_t dim hk hl hm]
        simp [hkl]
  | false =>
    rw [measure_cod_f]
    show _ = sumIdx (dim ++ dim ++ dim)
      (fun m => (CQMap.measure dim false).array (k ++ l) m *
        (CQMap.discard (⟨dim, dim⟩ : CQ)).array m j)
    by_cases hkl : k = l
    · subst hkl
      rw [show sumIdx (dim ++ dim ++ dim)
          (fun m => (CQMap.measure dim false).array (k ++ k) m *
            (CQMap.discard (⟨dim, dim⟩ : CQ)).array m j)
        = sumIdx (dim ++ dim ++ dim) (fun m => if m = k ++ k ++ k
            then (CQMap.discard (⟨dim, dim⟩ : CQ)).array m j else 0)
          from sumIdx_congr ?_]
      · rw [sumIdx_delta (List.rel_append (List.rel_append hk hk) hk)
          (fun m => (CQMap.discard (⟨dim, dim⟩ : CQ)).array m j)]
        rw [discard_entry (⟨dim, dim⟩ : CQ) j hk.length_eq hk.length_eq]
        rw [show k ++ k = ([] : List Nat) ++ k ++ k by simp]
        rw [discard_entry (CQ.Q dim) j (by rfl) hk.length_eq]
      · intro m hm
        obtain ⟨m12, l2, rfl, hm12, hl2⟩ := forall₂_lt_split hm
        obtain ⟨c, k2, rfl, hc, hk2⟩ := forall₂_lt_split hm12
        rw [measure_entry_f dim hk hk hc hk2 hl2]
        rw [discard_entry (⟨dim, dim⟩ : CQ) j hc.length_eq hk2.length_eq]
        rw [ite_mul_ite_prop]
        rw [ite_ite_and (1 : CRat)]
        simp only [append_eq_append_len (show (c ++ k2).length = (k ++ k).length by
          simp [hc.length_eq, hk2.length_eq, hk.length_eq]),
          append_eq_append_len (hc.length_eq.trans hk.length_eq.symm)]
        refine ite_one_zero_congr ?_ 1
        constructor <;> intro h <;> simp_all
    · rw [show sumIdx (dim ++ dim ++ dim)
          (fun m => (CQMap.measure dim false).array (k ++ l) m *
            (CQMap.discard (⟨dim, dim⟩ : CQ)).array m j)
        = sumIdx (dim ++ dim ++ dim) (fun _ => (0 : CRat)) from sumIdx_congr ?_]
      · rw [sumIdx_zero]
        rw [show k ++ l = ([] : List Nat) ++ k ++ l by simp]
        rw [discard_entry (CQ.Q dim) j (by rfl) hk.length_eq]
        simp [hkl]
      · intro m hm
        obtain ⟨m12, l2, rfl, hm12, hl2⟩ := forall₂_lt_split hm
        obtain ⟨c, k2, rfl, hc, hk2⟩ := forall₂_lt_split hm12
        rw [measure_entry_f dim hk hl hc hk2 hl2]
        simp [hkl]

theorem CRat.conj_ite (P : Prop) [Decidable P] :
    (if P then (1 : CRat) else 0).conj = if P then 1 else 0 := by
  by_cases h : P <;> simp [h] <;> ext <;> simp [CRat.conj] <;> rfl

theorem discard_q_entry (dim : List Nat) {k l : List Nat} (j : List Nat)
    (hk : k.length = dim.length) :
    (CQMap.discard (CQ.Q dim)).array (k ++ l) j = if k = l then 1 else 0 := by
  rw [show k ++ l = ([] : List Nat) ++ k ++ l by simp]
  exact discard_entry (CQ.Q dim) j (by rfl) hk

theorem encode_dom_t (dim : List Nat) : (CQMap.encode dim true).dom = CQ.C dim := by
  show (CQMap.measure dim true).cod = _
  exact measure_cod_t dim

theorem encode_cod_t (dim : List Nat) : (CQMap.encode dim true).cod = CQ.Q dim := by
  show (CQMap.measure dim true).dom = _
  exact measure_dom dim true

theorem encode_causal (dim : List Nat) : (CQMap.encode dim true).is_causal := by
  refine ⟨rfl, rfl, ?_⟩
  intro i hi j hj
  apply CRat.close_of_eq
  have hi2 : List.Forall₂ (· < ·) i ((dim ++ []) ++ []) := by
    have h := mem_enumIdx.1 hi
    rw [encode_dom_t] at h
    exact h
  obtain ⟨i12, i3, rfl, h12, h3⟩ := forall₂_lt_split hi2
  cases h3
  obtain ⟨i1, i2, rfl, h1, h2⟩ := forall₂_lt_split h12
  cases h2
  show (CQMap.discard ((CQMap.encode dim true).dom)).array ((i1 ++ []) ++ []) j
      = sumIdx ((CQMap.encode dim true).cod.dims)
        (fun m => (CQMap.encode dim true).array ((i1 ++ []) ++ []) m *
          (CQMap.discard ((CQMap.encode dim true).cod)).array m j)
  rw [encode_dom_t, encode_cod_t]
  rw [show (i1 ++ ([] : List Nat)) ++ [] = i1 by simp]
  rw [discard_c_one dim i1 j h1.length_eq]
  rw [dims_Q]
  rw [show sumIdx (dim ++ dim)
      (fun m => (CQMap.encode dim true).array i1 m *
        (CQMap.discard (CQ.Q dim)).array m j)
    = sumIdx (dim ++ dim) (fun m => if m = i1 ++ i1 then 1 else 0)
    from sumIdx_congr ?_]
  · rw [sumIdx_delta (List.rel_append h1 h1) (fun _ => (1 : CRat))]
  · intro m hm
    obtain ⟨k2, l2, rfl, hk2, hl2⟩ := forall₂_lt_split hm
    rw [show (CQMap.encode dim true).array i1 (k2 ++ l2)
        = ((CQMap.measure dim true).array (k2 ++ l2) i1).conj from rfl]
    rw [measure_entry_t dim hk2 hl2 h1]
    rw [discard_q_entry dim j hk2.length_eq]
    rw [CRat.conj_ite]
    rw [ite_mul_ite_prop]
    simp only [append_eq_append_len (hk2.length_eq.trans h1.length_eq.symm)]
    refine ite_one_zero_congr ?_ 1
    constructor <;> intro h <;> simp_all

theorem then_causal {f g : CQMap} (hfg : f.cod = g.dom)
    (hf : f.is_causal) (hg : g.is_causal) : (f.thenU g).is_causal := by
  refine ⟨rfl, rfl, ?_⟩
  intro i hi j hj
  apply CRat.close_of_eq
  show (CQMap.discard ((f.thenU g).dom)).array i j
      = sumIdx (g.cod.dims)
        (fun m => sumIdx (f.cod.dims) (fun n => f.array i n * g.array n m) *
          (CQMap.discard g.cod).array m j)
  rw [show sumIdx (g.cod.dims)
      (fun m => sumIdx (f.cod.dims) (fun n => f.array i n * g.array n m) *
        (CQMap.discard g.cod).array m j)
    = sumIdx (g.cod.dims) (fun m => sumIdx (f.cod.dims)
        (fun n => f.array i n * g.array n m * (CQMap.discard g.cod).array m j))
    from sumIdx_congr fun m _ => (sumIdx_mul_right _ _ _).symm]
  rw [sumIdx_comm]
  rw [show sumIdx (f.cod.dims) (fun n => sumIdx (g.cod.dims)
        (fun m => f.array i n * g.array n m * (CQMap.discard g.cod).array m j))
      = sumIdx (f.cod.dims) (fun n => f.array i n * sumIdx (g.cod.dims)
        (fun m => g.array n m * (CQMap.discard g.cod).array m j)) from
    sumIdx_congr fun n _ => by
      rw [← sumIdx_mul_left]
      exact sumIdx_congr fun m _ => by ring]
  rw [show sumIdx (f.cod.dims) (fun n => f.array i n * sumIdx (g.cod.dims)
        (fun m => g.array n m * (CQMap.discard g.cod).array m j))
      = sumIdx (f.cod.dims)
        (fun n => f.array i n * (CQMap.discard g.dom).array n j)
    from sumIdx_congr fun n hn => ?_]
  · rw [← hfg]
    exact CRat.eq_of_close (hf.2.2 i hi j hj)
  · have hn' : n ∈ enumIdx ((CQMap.discard g.dom).dom.dims) := by
      show n ∈ enumIdx (g.dom.dims)
      rw [← hfg]
      exact mem_enumIdx.2 hn
    have he := CRat.eq_of_close (hg.2.2 n hn' j hj)
    exact congrArg (fun x => f.array i n * x) he.symm

theorem sumIdx_factor6 (A0 A1 B0 B1 C0 C1 : List Nat) (F G : List Nat → CRat) :
    sumIdx A0 (fun x0 => sumIdx A1 (fun x1 => sumIdx B0 (fun y0 => sumIdx B1 (fun y1 =>
      sumIdx C0 (fun z0 => sumIdx C1 (fun z1 =>
        F (x0 ++ y0 ++ z0) * G (x1 ++ y1 ++ z1)))))))
      = sumIdx (A0 ++ B0 ++ C0) F * sumIdx (A1 ++ B1 ++ C1) G := by
  calc
    sumIdx A0 (fun x0 => sumIdx A1 (fun x1 => sumIdx B0 (fun y0 => sumIdx B1 (fun y1 =>
        sumIdx C0 (fun z0 => sumIdx C1 (fun z1 =>
          F (x0 ++ y0 ++ z0) * G (x1 ++ y1 ++ z1)))))))
      = sumIdx A0 (fun x0 => sumIdx A1 (fun x1 => sumIdx B0 (fun y0 => sumIdx B1 (fun y1 =>
          sumIdx C0 (fun z0 =>
            F (x0 ++ y0 ++ z0) * sumIdx C1 (fun z1 => G (x1 ++ y1 ++ z1))))))) :=
      sumIdx_congr fun x0 _ => sumIdx_congr fun x1 _ => sumIdx_congr fun y0 _ =>
        sumIdx_congr fun y1 _ => sumIdx_congr fun z0 _ =>
          sumIdx_mul_left C1 (F (x0 ++ y0 ++ z0)) (fun z1 => G (x1 ++ y1 ++ z1))
    _ = sumIdx A0 (fun x0 => sumIdx A1 (fun x1 => sumIdx B0 (fun y0 => sumIdx B1 (fun y1 =>
          sumIdx C0 (fun z0 => F (x0 ++ y0 ++ z0)) *
            sumIdx C1 (fun z1 => G (x1 ++ y1 ++ z1)))))) :=
      sumIdx_congr fun x0 _ => sumIdx_congr fun x1 _ => sumIdx_congr fun y0 _ =>
        sumIdx_congr fun y1 _ =>
          sumIdx_mul_right C0 (sumIdx C1 (fun z1 => G (x1 ++ y1 ++ z1)))
            (fun z0 => F (x0 ++ y0 ++ z0))
    _ = sumIdx A0 (fun x0 => sumIdx A1 (fun x1 => sumIdx B0 (fun y0 =>
          sumIdx C0 (fun z0 => F (x0 ++ y0 ++ z0)) *
            sumIdx B1 (fun y1 => sumIdx C1 (fun z1 => G (x1 ++ y1 ++ z1)))))) :=
      sumIdx_congr fun x0 _ => sumIdx_congr fun x1 _ => sumIdx_congr fun y0 _ =>
        sumIdx_mul_left B1 (sumIdx C0 (fun z0 => F (x0 ++ y0 ++ z0)))
          (fun y1 => sumIdx C1 (fun z1 => G (x1 ++ y1 ++ z1)))
    _ = sumIdx A0 (fun x0 => sumIdx A1 (fun x1 =>
          sumIdx B0 (fun y0 => sumIdx C0 (fun z0 => F (x0 ++ y0 ++ z0))) *
            sumIdx B1 (fun y1 => sumIdx C1 (fun z1 => G (x1 ++ y1 ++ z1))))) :=
      sumIdx_congr fun x0 _ => sumIdx_congr fun x1 _ =>
        sumIdx_mul_right B0
          (sumIdx B1 (fun y1 => sumIdx C1 (fun z1 => G (x1 ++ y1 ++ z1))))
          (fun y0 => sumIdx C0 (fun z0 => F (x0 ++ y0 ++ z0)))
    _ = sumIdx A0 (fun x0 =>
          sumIdx B0 (fun y0 => sumIdx C0 (fun z0 => F (x0 ++ y0 ++ z0))) *
            sumIdx A1 (fun x1 =>
              sumIdx B1 (fun y1 => sumIdx C1 (fun z1 => G (x1 ++ y1 ++ z1))))) :=
      sumIdx_congr fun x0 _ =>
        sumIdx_mul_left A1
          (sumIdx B0 (fun y0 => sumIdx C0 (fun z0 => F (x0 ++ y0 ++ z0))))
          (fun x1 => sumIdx B1 (fun y1 => sumIdx C1 (fun z1 => G (x1 ++ y1 ++ z1))))
    _ = sumIdx A0 (fun x0 =>
          sumIdx B0 (fun y0 => sumIdx C0 (fun z0 => F (x0 ++ y0 ++ z0)))) *
          sumIdx A1 (fun x1 =>
            sumIdx B1 (fun y1 => sumIdx C1 (fun z1 => G (x1 ++ y1 ++ z1)))) :=
      sumIdx_mul_right A0
        (sumIdx A1 (fun x1 =>
          sumIdx B1 (fun y1 => sumIdx C1 (fun z1 => G (x1 ++ y1 ++ z1)))))
        (fun x0 => sumIdx B0 (fun y0 => sumIdx C0 (fun z0 => F (x0 ++ y0 ++ z0))))
    _ = sumIdx (A0 ++ B0 ++ C0) F * sumIdx (A1 ++ B1 ++ C1) G := by
      rw [sumIdx_append (A0 ++ B0) C0, sumIdx_append A0 B0,
        sumIdx_append (A1 ++ B1) C1, sumIdx_append A1 B1]

theorem discard_entry6 (A B : CQ) {x0 x1 y0 y1 z0 z1 : List Nat} (j : List Nat)
    (h0 : x0.length = A.classical.length) (h1 : x1.length = B.classical.length)
    (h2 : y0.length = A.quantum.length) (h3 : y1.length = B.quantum.length) :
    (CQMap.discard (A.tensor B)).array (x0 ++ x1 ++ y0 ++ y1 ++ z0 ++ z1) j
      = if y0 ++ y1 = z0 ++ z1 then 1 else 0 := by
  rw [show x0 ++ x1 ++ y0 ++ y1 ++ z0 ++ z1
      = (x0 ++ x1) ++ (y0 ++ y1) ++ (z0 ++ z1) by simp [List.append_assoc]]
  exact discard_entry (A.tensor B) j (by simp [CQ.tensor, h0, h1])
    (by simp [CQ.tensor, h2, h3])

theorem tensor_causal {f g : CQMap} (hf : f.is_causal) (hg : g.is_causal) :
    (f.tensor g).is_causal := by
  refine ⟨rfl, rfl, ?_⟩
  intro i hi j hj
  apply CRat.close_of_eq
  have hi2 : List.Forall₂ (· < ·) i
      ((f.dom.classical ++ g.dom.classical) ++ (f.dom.quantum ++ g.dom.quantum) ++
        (f.dom.quantum ++ g.dom.quantum)) := mem_enumIdx.1 hi
  obtain ⟨i12, ibb, rfl, hi12, hibb⟩ := forall₂_lt_split hi2
  obtain ⟨icc, ikk, rfl, hicc, hikk⟩ := forall₂_lt_split hi12
  obtain ⟨ic0, ic1, rfl, hic0, hic1⟩ := forall₂_lt_split hicc
  obtain ⟨ik0, ik1, rfl, hik0, hik1⟩ := forall₂_lt_split hikk
  obtain ⟨ib0, ib1, rfl, hib0, hib1⟩ := forall₂_lt_split hibb
  show (CQMap.discard ((f.tensor g).dom)).array
      (ic0 ++ ic1 ++ (ik0 ++ ik1) ++ (ib0 ++ ib1)) j
    = sumIdx ((f.cod.classical ++ g.cod.classical) ++
        (f.cod.quantum ++ g.cod.quantum) ++ (f.cod.quantum ++ g.cod.quantum))
      (fun m => (f.tensor g).array (ic0 ++ ic1 ++ (ik0 ++ ik1) ++ (ib0 ++ ib1)) m *
        (CQMap.discard ((f.tensor g).cod)).array m j)
  simp only [sumIdx_append]
  rw [show sumIdx f.cod.classical (fun x0 => sumIdx g.cod.classical (fun x1 =>
      sumIdx f.cod.quantum (fun y0 => sumIdx g.cod.quantum (fun y1 =>
        sumIdx f.cod.quantum (fun z0 => sumIdx g.cod.quantum (fun z1 =>
          (f.tensor g).array (ic0 ++ ic1 ++ (ik0 ++ ik1) ++ (ib0 ++ ib1))
              (x0 ++ x1 ++ (y0 ++ y1) ++ (z0 ++ z1)) *
            (CQMap.discard ((f.tensor g).cod)).array
              (x0 ++ x1 ++ (y0 ++ y1) ++ (z0 ++ z1)) j))))))
    = sumIdx f.cod.classical (fun x0 => sumIdx g.cod.classical (fun x1 =>
      sumIdx f.cod.quantum (fun y0 => sumIdx g.cod.quantum (fun y1 =>
        sumIdx f.cod.quantum (fun z0 => sumIdx g.cod.quantum (fun z1 =>
          (f.array (ic0 ++ ik0 ++ ib0) (x0 ++ y0 ++ z0) *
              (CQMap.discard f.cod).array (x0 ++ y0 ++ z0) j) *
            (g.array (ic1 ++ ik1 ++ ib1) (x1 ++ y1 ++ z1) *
              (CQMap.discard g.cod).array (x1 ++ y1 ++ z1) j)))))))
    from sumIdx_congr fun x0 h0 => sumIdx_congr fun x1 h1 =>
      sumIdx_congr fun y0 h2 => sumIdx_congr fun y1 h3 =>
      sumIdx_congr fun z0 h4 => sumIdx_congr fun z1 h5 => ?_]
  · have hfact : sumIdx f.cod.classical (fun x0 => sumIdx g.cod.classical (fun x1 =>
        sumIdx f.cod.quantum (fun y0 => sumIdx g.cod.quantum (fun y1 =>
          sumIdx f.cod.quantum (fun z0 => sumIdx g.cod.quantum (fun z1 =>
            (f.array (ic0 ++ ik0 ++ ib0) (x0 ++ y0 ++ z0) *
                (CQMap.discard f.cod).array (x0 ++ y0 ++ z0) j) *
              (g.array (ic1 ++ ik1 ++ ib1) (x1 ++ y1 ++ z1) *
                (CQMap.discard g.cod).array (x1 ++ y1 ++ z1) j)))))))
      = sumIdx (f.cod.classical ++ f.cod.quantum ++ f.cod.quantum)
          (fun n => f.array (ic0 ++ ik0 ++ ib0) n * (CQMap.discard f.cod).array n j) *
        sumIdx (g.cod.classical ++ g.cod.quantum ++ g.cod.quantum)
          (fun n => g.array (ic1 ++ ik1 ++ ib1) n * (CQMap.discard g.cod).array n j) :=
      sumIdx_factor6 f.cod.classical g.cod.classical f.cod.quantum g.cod.quantum
        f.cod.quantum g.cod.quantum
        (fun n => f.array (ic0 ++ ik0 ++ ib0) n * (CQMap.discard f.cod).array n j)
        (fun n => g.array (ic1 ++ ik1 ++ ib1) n * (CQMap.discard g.cod).array n j)
    rw [hfact]
    have hF : sumIdx (f.cod.classical ++ f.cod.quantum ++ f.cod.quantum)
        (fun n => f.array (ic0 ++ ik0 ++ ib0) n * (CQMap.discard f.cod).array n j)
      = (CQMap.discard f.dom).array (ic0 ++ ik0 ++ ib0) j :=
      (CRat.eq_of_close (hf.2.2 (ic0 ++ ik0 ++ ib0)
        (mem_enumIdx.2 (List.rel_append (List.rel_append hic0 hik0) hib0)) j hj)).symm
    have hG : sumIdx (g.cod.classical ++ g.cod.quantum ++ g.cod.quantum)
        (fun n => g.array (ic1 ++ ik1 ++ ib1) n * (CQMap.discard g.cod).array n j)
      = (CQMap.discard g.dom).array (ic1 ++ ik1 ++ ib1) j :=
      (CRat.eq_of_close (hg.2.2 (ic1 ++ ik1 ++ ib1)
        (mem_enumIdx.2 (List.rel_append (List.rel_append hic1 hik1) hib1)) j hj)).symm
    rw [hF, hG]
    rw [show (f.tensor g).dom = f.dom.tensor g.dom from rfl]
    rw [show (CQMap.discard (f.dom.tensor g.dom)).array
        (ic0 ++ ic1 ++ (ik0 ++ ik1) ++ (ib0 ++ ib1)) j
      = if ik0 ++ ik1 = ib0 ++ ib1 then 1 else 0 from
      discard_entry (f.dom.tensor g.dom) j
        (by simp [CQ.tensor, hic0.length_eq, hic1.length_eq])
        (by simp [CQ.tensor, hik0.length_eq, hik1.length_eq])]
    rw [discard_entry f.dom j hic0.length_eq hik0.length_eq,
      discard_entry g.dom j hic1.length_eq hik1.length_eq]
    rw [ite_mul_ite_prop]
    simp only [append_eq_append_len (hik0.length_eq.trans hib0.length_eq.symm)]
  · rw [show x0 ++ x1 ++ (y0 ++ y1) ++ (z0 ++ z1)
        = x0 ++ x1 ++ y0 ++ y1 ++ z0 ++ z1 by simp [List.append_assoc]]
    rw [show ic0 ++ ic1 ++ (ik0 ++ ik1) ++ (ib0 ++ ib1)
        = ic0 ++ ic1 ++ ik0 ++ ik1 ++ ib0 ++ ib1 by simp [List.append_assoc]]
    rw [tensor_entry f g hic0 hic1 hik0 hik1 hib0 hib1 h0 h1 h2 h3 h4 h5]
    rw [show (f.tensor g).cod = f.cod.tensor g.cod from rfl]
    rw [discard_entry6 f.cod g.cod j h0.length_eq h1.length_eq h2.length_eq
      h3.length_eq]
    simp only [append_eq_append_len (h2.length_eq.trans h4.length_eq.symm)]
    rw [← ite_mul_ite_prop]
    rw [discard_entry f.cod j h0.length_eq h2.length_eq,
      discard_entry g.cod j h1.length_eq h3.length_eq]
    ring

/-! ### Bitstring lemmas -/

theorem bitstring2index_cons (b : Nat) (t : List Nat) :
    bitstring2index (b :: t) = b * 2 ^ t.length + bitstring2index t := by
  unfold bitstring2index
  rw [List.reverse_cons, List.enum_append]
  rw [List.map_append, List.sum_append]
  rw [show List.enumFrom t.reverse.length [b] = [(t.reverse.length, b)] from rfl]
  rw [show (List.map (fun p => p.2 * 2 ^ p.1) [(t.reverse.length, b)]).sum
      = b * 2 ^ t.reverse.length by simp]
  rw [List.length_reverse]
  omega

theorem beVal_append_singleton (xs : List Nat) (d : Nat) :
    beVal (xs ++ [d]) = 2 * beVal xs + d := by
  induction xs with
  | nil => simp [beVal]
  | cons x t ih =>
    rw [List.cons_append]
    rw [show beVal (x :: (t ++ [d])) = x * 2 ^ (t ++ [d]).length + beVal (t ++ [d])
      from rfl]
    rw [show beVal (x :: t) = x * 2 ^ t.length + beVal t from rfl]
    rw [ih, List.length_append]
    rw [show (t.length + [d].length) = t.length + 1 by simp]
    ring

theorem bitstring2index_eq_beVal (l : List Nat) : bitstring2index l = beVal l := by
  induction l with
  | nil => rfl
  | cons b t ih =>
    rw [bitstring2index_cons, ih]
    rfl

theorem beVal_replicate_zero (n : Nat) (s : List Nat) :
    beVal (List.replicate n 0 ++ s) = beVal s := by
  induction n with
  | zero => simp
  | succ m ih =>
    rw [List.replicate_succ, List.cons_append]
    rw [show beVal (0 :: (List.replicate m 0 ++ s))
        = 0 * 2 ^ (List.replicate m 0 ++ s).length + beVal (List.replicate m 0 ++ s)
      from rfl]
    rw [ih]
    omega

theorem beVal_binDigitsAux (fuel : Nat) : ∀ n, n ≤ fuel →
    beVal (binDigitsAux fuel n) = n := by
  induction fuel with
  | zero =>
    intro n hn
    interval_cases n
    rfl
  | succ fuel ih =>
    intro n hn
    by_cases h0 : n = 0
    · subst h0; rfl
    · rw [show binDigitsAux (fuel + 1) n
          = if n = 0 then [] else binDigitsAux fuel (n / 2) ++ [n % 2] from rfl,
        if_neg h0]
      rw [beVal_append_singleton]
      have hdiv : n / 2 ≤ fuel := by
        have := Nat.div_lt_self (Nat.pos_of_ne_zero h0) (by norm_num : 1 < 2)
        omega
      rw [ih (n / 2) hdiv]
      omega

theorem length_binDigitsAux (fuel : Nat) : ∀ n L, n ≤ fuel → 2 ^ L ≤ n →
    L < (binDigitsAux fuel n).length := by
  induction fuel with
  | zero =>
    intro n L hn hL
    have := pow_pos (by norm_num : (0 : ℕ) < 2) L
    omega
  | succ fuel ih =>
    intro n L hn hL
    have h0 : n ≠ 0 := by
      have := pow_pos (by norm_num : (0 : ℕ) < 2) L
      omega
    rw [show binDigitsAux (fuel + 1) n
        = if n = 0 then [] else binDigitsAux fuel (n / 2) ++ [n % 2] from rfl,
      if_neg h0]
    rw [List.length_append]
    cases L with
    | zero => simp
    | succ L2 =>
      have hdiv : n / 2 ≤ fuel := by
        have := Nat.div_lt_self (Nat.pos_of_ne_zero h0) (by norm_num : 1 < 2)
        omega
      have hpow : 2 ^ L2 ≤ n / 2 := by
        rw [Nat.le_div_iff_mul_le (by norm_num : 0 < 2)]
        rw [← pow_succ]
        exact hL
      have := ih (n / 2) L2 hdiv hpow
      simp only [List.length_singleton]
      omega

theorem bitstring2index_index2bitstring (i length : Nat) :
    bitstring2index (index2bitstring i length) = i := by
  unfold index2bitstring
  rw [bitstring2index_eq_beVal, beVal_replicate_zero]
  by_cases h0 : i = 0
  · subst h0
    rfl
  · rw [if_neg h0]
    exact beVal_binDigitsAux i i (Nat.le_refl i)

theorem length_index2bitstring_ge (i length : Nat) (h : 2 ^ length ≤ i) :
    length < (index2bitstring i length).length := by
  have h0 : i ≠ 0 := by
    have := pow_pos (by norm_num : (0 : ℕ) < 2) length
    omega
  unfold index2bitstring
  rw [if_neg h0]
  rw [List.length_append, List.length_replicate]
  have := length_binDigitsAux i i length (Nat.le_refl i) h
  omega

/-! ### Claim theorems -/

set_option maxRecDepth 20000 in
/-- C2: the spec claims that every `CQMap` built by `pure`, `classical`,
`measure`, `encode`, `discard`, `swap`, `cups` or `caps` is causal.  This is
false at explicit inputs: the pure lift of the scalar 2, the classical lift
of an unnormalised state, non-constructive encoding, and the (unnormalised)
cups and caps all fail `is_causal`. -/
theorem C2_causality_counterexample :
    ¬ (CQMap.pure ⟨[], [], fun _ _ => 2⟩).is_causal ∧
    ¬ (CQMap.classical ⟨[], [2], fun _ _ => 1⟩).is_causal ∧
    ¬ (CQMap.encode [2] false).is_causal ∧
    ¬ (CQMap.cups (CQ.C [2]) (CQ.C [2])).is_causal ∧
    ¬ (CQMap.caps (CQ.C [2]) (CQ.C [2])).is_causal := by
  decide

/-- C2: [amended] every `CQMap` built by `measure` (any dimension, either
flag), `encode` with `constructive = true` (its default), `discard` or
`swap` is causal, and causality is preserved by sequential composition of
composable maps and by parallel tensor; `pure`, `classical`,
`encode(-, false)`, `cups` and `caps` are not causal in general.  The
closeness here is exact equality, which implies closeness within any
tolerance. -/
theorem C2_causality_amended :
    (∀ (dim : List Nat) (destructive : Bool),
       (CQMap.measure dim destructive).is_causal) ∧
    (∀ dim : List Nat, (CQMap.encode dim true).is_causal) ∧
    (∀ A : CQ, (CQMap.discard A).is_causal) ∧
    (∀ A B : CQ, (CQMap.swap A B).is_causal) ∧
    (∀ f g : CQMap, f.cod = g.dom → f.is_causal → g.is_causal →
       (f.thenU g).is_causal) ∧
    (∀ f g : CQMap, f.is_causal → g.is_causal → (f.tensor g).is_causal) :=
  ⟨measure_causal, fun dim => encode_causal dim, discard_causal, swap_causal,
   fun _ _ h hf hg => then_causal h hf hg,
   fun _ _ hf hg => tensor_causal hf hg⟩

/-- C1: for CQMaps `f : A → B` and `g : A' → B'`, `f.tensor g` has domain
`A ⊗ A'`, codomain `B ⊗ B'`, and its backing array at regrouped indices —
classical legs first (`f`'s then `g`'s), then quantum ket legs (`f`'s then
`g`'s), then quantum bra legs (`f`'s then `g`'s), in both domain and
codomain — is the product of the operands' entries at their own
`classical ++ ket ++ bra` indices, i.e. the Kronecker product with the legs
regrouped rather than kept adjacent per operand. -/
theorem C1_tensor_leg_grouping (f g : CQMap)
    {ic0 ic1 ik0 ik1 ib0 ib1 jc0 jc1 jk0 jk1 jb0 jb1 : List Nat}
    (h1 : List.Forall₂ (· < ·) ic0 f.dom.classical)
    (h2 : List.Forall₂ (· < ·) ic1 g.dom.classical)
    (h3 : List.Forall₂ (· < ·) ik0 f.dom.quantum)
    (h4 : List.Forall₂ (· < ·) ik1 g.dom.quantum)
    (h5 : List.Forall₂ (· < ·) ib0 f.dom.quantum)
    (h6 : List.Forall₂ (· < ·) ib1 g.dom.quantum)
    (h7 : List.Forall₂ (· < ·) jc0 f.cod.classical)
    (h8 : List.Forall₂ (· < ·) jc1 g.cod.classical)
    (h9 : List.Forall₂ (· < ·) jk0 f.cod.quantum)
    (h10 : List.Forall₂ (· < ·) jk1 g.cod.quantum)
    (h11 : List.Forall₂ (· < ·) jb0 f.cod.quantum)
    (h12 : List.Forall₂ (· < ·) jb1 g.cod.quantum) :
    (f.tensor g).dom = f.dom.tensor g.dom ∧
    (f.tensor g).cod = f.cod.tensor g.cod ∧
    (f.tensor g).array (ic0 ++ ic1 ++ ik0 ++ ik1 ++ ib0 ++ ib1)
        (jc0 ++ jc1 ++ jk0 ++ jk1 ++ jb0 ++ jb1)
      = f.array (ic0 ++ ik0 ++ ib0) (jc0 ++ jk0 ++ jb0) *
          g.array (ic1 ++ ik1 ++ ib1) (jc1 ++ jk1 ++ jb1) :=
  ⟨rfl, rfl, tensor_entry f g h1 h2 h3 h4 h5 h6 h7 h8 h9 h10 h11 h12⟩

set_option maxRecDepth 20000 in
/-- Concrete instantiation of the tensor leg-grouping theorem at the sample
maps `sampleF : C(2) → Q(2)` and `sampleG : Q(2) → C(2)`. -/
theorem C1_tensor_leg_grouping_witness :
    (List.Forall₂ (· < ·) [1] sampleF.dom.classical ∧
     List.Forall₂ (· < ·) [0] sampleG.dom.quantum ∧
     List.Forall₂ (· < ·) [1] sampleG.dom.quantum ∧
     List.Forall₂ (· < ·) [0] sampleF.cod.quantum ∧
     List.Forall₂ (· < ·) [1] sampleF.cod.quantum ∧
     List.Forall₂ (· < ·) [1] sampleG.cod.classical) ∧
    ((sampleF.tensor sampleG).dom = sampleF.dom.tensor sampleG.dom ∧
     (sampleF.tensor sampleG).cod = sampleF.cod.tensor sampleG.cod ∧
     (sampleF.tensor sampleG).array
         ([1] ++ [] ++ [] ++ [0] ++ [] ++ [1]) ([] ++ [1] ++ [0] ++ [] ++ [1] ++ [])
       = sampleF.array ([1] ++ [] ++ []) ([] ++ [0] ++ [1]) *
           sampleG.array ([] ++ [0] ++ [1]) ([1] ++ [] ++ [])) :=
  ⟨by decide,
   @C1_tensor_leg_grouping sampleF sampleG [1] [] [] [0] [] [1] [] [1] [0] [] [1] []
     (by decide) (by decide) (by decide) (by decide) (by decide) (by decide)
     (by decide) (by decide) (by decide) (by decide) (by decide) (by decide)⟩

/-- C3: the spec claims `f.then g` succeeds exactly when the CQ objects
`f.cod` and `g.dom` are equal.  This is false: the composability check of
the underlying tensors compares the flattened dimension lists
`classical ++ quantum ++ quantum`, so a classical codomain `C(2, 2)`
composes with a quantum domain `Q(2)` although the CQ objects differ. -/
theorem C3_then_counterexample :
    ((CQMap.classical ⟨[], [2, 2], fun _ _ => 1⟩).then'
        (CQMap.pure ⟨[2], [], fun _ _ => 1⟩)).isOk = true ∧
    (CQMap.classical ⟨[], [2, 2], fun _ _ => 1⟩).cod
      ≠ (CQMap.pure ⟨[2], [], fun _ _ => 1⟩).dom := by
  decide

/-- C3: [amended] `f.then g` succeeds exactly when the flattened dimension
lists of `f.cod` and `g.dom` agree (equality of the CQ objects is sufficient
but not necessary), it fails with a composability error otherwise, and on
success — in particular whenever `f.cod = g.dom` — the result is
`CQMap(f.dom, g.cod, -)` with array the contraction of `f`'s codomain legs
against `g`'s domain legs in declared leg order. -/
theorem C3_then_composability (f g : CQMap) :
    ((f.then' g).isOk = true ↔ f.cod.dims = g.dom.dims) ∧
    ((f.then' g).isOk = false →
       f.then' g = Except.error "AxiomError: does not compose") ∧
    (f.cod = g.dom →
       f.then' g = Except.ok ⟨f.dom, g.cod, (f.data.comp g.data).array⟩) := by
  refine ⟨?_, ?_, ?_⟩
  · unfold CQMap.then'
    by_cases h : f.cod.dims = g.dom.dims <;> simp [h, Except.isOk] <;> rfl
  · intro hnot
    unfold CQMap.then' at hnot ⊢
    by_cases h : f.cod.dims = g.dom.dims
    · rw [if_pos h] at hnot
      exact Bool.noConfusion hnot
    · rw [if_neg h]
  · intro h
    unfold CQMap.then'
    rw [if_pos (by rw [h])]
    rfl

/-- C4: `CQMap.measure dim destructive` returns, for empty `dim`, the scalar
map from `CQ()` to `CQ()` with array 1; for a single axis with
`destructive = true`, the map from `Q(dim)` to `C(dim)` whose array is the
3-index indicator `1[i = j = k]`; for a single axis with
`destructive = false`, the map from `Q(dim)` to `C(dim) ⊗ Q(dim)` whose
array is the 5-index indicator `1[i = j = k = l = m]`; and for `dim` of
length at least 2 it is `measure dim[:1] ⊗ measure dim[1:]`, fixing the
left-to-right axis ordering. -/
theorem C4_measure_cases :
    (∀ t : Bool, CQMap.measure [] t = ⟨CQ.unit, CQ.unit, fun _ _ => 1⟩) ∧
    (∀ d : Nat,
       (CQMap.measure [d] true).dom = CQ.Q [d] ∧
       (CQMap.measure [d] true).cod = CQ.C [d] ∧
       (∀ i j k : Nat, (CQMap.measure [d] true).array [i, j] [k]
          = if i = j ∧ j = k then 1 else 0)) ∧
    (∀ d : Nat,
       (CQMap.measure [d] false).dom = CQ.Q [d] ∧
       (CQMap.measure [d] false).cod = (CQ.C [d]).tensor (CQ.Q [d]) ∧
       (∀ i j k l m : Nat, (CQMap.measure [d] false).array [i, j] [k, l, m]
          = if i = j ∧ j = k ∧ k = l ∧ l = m then 1 else 0)) ∧
    (∀ (d d2 : Nat) (rest : List Nat) (t : Bool),
       CQMap.measure (d :: d2 :: rest) t
         = (CQMap.measure [d] t).tensor (CQMap.measure (d2 :: rest) t)) :=
  ⟨fun _ => rfl,
   fun d => ⟨measure1_dom d true, rfl, fun i j k => measure1_entry_t d i j k⟩,
   fun d => ⟨measure1_dom d false, rfl,
     fun i j k l m => measure1_entry_f d i j k l m⟩,
   fun _ _ _ _ => rfl⟩

/-- C5: for every dimension and flag, `CQMap.encode dim constructive` is
exactly `CQMap.measure dim constructive |>.dagger`: same object (so equal
`dom`/`cod`, swapped from measurement), and every array entry is the complex
conjugate of the transposed entry of measurement — no separate array
construction. -/
theorem C5_encode_measure_dagger (dim : List Nat) (constructive : Bool) :
    CQMap.encode dim constructive = (CQMap.measure dim constructive).dagger ∧
    (CQMap.encode dim constructive).dom = (CQMap.measure dim constructive).cod ∧
    (CQMap.encode dim constructive).cod = (CQMap.measure dim constructive).dom ∧
    (∀ i j : List Nat, (CQMap.encode dim constructive).array i j
       = ((CQMap.measure dim constructive).array j i).conj) :=
  ⟨rfl, rfl, rfl, fun _ _ => rfl⟩

/-- C6: with no backend, `Circuit.eval` returns the `CQMap` produced by the
CQMap functor (object map `bit ↦ C(2)`, `qubit ↦ Q(2)`) when `mixed = true`
is requested or the circuit is structurally mixed (domain containing both
`bit` and `qubit`, or some box mixed), and otherwise the plain tensor
produced by the array functor that sends `bit` and `qubit` to size 2 and
each pure box to its own array. -/
theorem C6_eval_dispatch (c : Circ) (mixed : Bool) :
    ((mixed = true ∨ c.is_mixed = true) →
       Circ.eval c mixed = EvalResult.cqmap (evalCQ c)) ∧
    (mixed = false ∧ c.is_mixed = false →
       Circ.eval c mixed = EvalResult.tensor (evalT c)) ∧
    c.is_mixed = ((c.dom.contains BQ.bit && c.dom.contains BQ.qubit)
                    || c.boxes.any CBox.is_mixed) ∧
    obCQ BQ.bit = CQ.C [2] ∧ obCQ BQ.qubit = CQ.Q [2] ∧
    (∀ b : BQ, obDims [b] = [2]) ∧
    (∀ (isClassical : Bool) (d co : BQTy) (arr : List Nat → List Nat → CRat),
       evalT (Circ.box (CBox.pureB isClassical d co arr))
         = ⟨obDims d, obDims co, arr⟩) := by
  refine ⟨?_, ?_, rfl, rfl, rfl, fun b => by cases b <;> rfl,
    fun _ _ _ _ => rfl⟩
  · intro h
    rcases h with h | h <;> simp [Circ.eval, h]
  · intro ⟨h1, h2⟩
    simp [Circ.eval, h1, h2]

/-- C7: for every length in 1..8 and every `i < 2 ^ length`,
`bitstring2index (index2bitstring i length) = i`: converting an index to its
zero-padded big-endian bitstring and back is the identity. -/
theorem C7_bitstring_roundtrip (i length : Nat)
    (h1 : 1 ≤ length) (h2 : length ≤ 8) (h3 : i < 2 ^ length) :
    bitstring2index (index2bitstring i length) = i :=
  bitstring2index_index2bitstring i length

/-- Concrete instantiation of the bitstring round trip at `i = 42`,
`length = 8` (the doctest of `index2bitstring`). -/
theorem C7_bitstring_roundtrip_witness :
    (1 ≤ 8 ∧ 8 ≤ 8 ∧ 42 < 2 ^ 8) ∧
    bitstring2index (index2bitstring 42 8) = 42 :=
  ⟨by decide, C7_bitstring_roundtrip 42 8 (by decide) (by decide) (by decide)⟩

/-- C10: `index2bitstring i length` raises no error when `2 ^ length ≤ i`:
it silently returns the full binary expansion of `i`, a tuple strictly
longer than `length` whose value under `bitstring2index` is still `i` — so
the postcondition that the result has exactly `length` entries holds only
under the precondition `i < 2 ^ length`. -/
theorem C10_index2bitstring_overflow (i length : Nat) (h : 2 ^ length ≤ i) :
    length < (index2bitstring i length).length ∧
    bitstring2index (index2bitstring i length) = i :=
  ⟨length_index2bitstring_ge i length h, bitstring2index_index2bitstring i length⟩

/-- Concrete instantiation of the overflow behaviour at `i = 300`,
`length = 8`. -/
theorem C10_index2bitstring_overflow_witness :
    2 ^ 8 ≤ 300 ∧
    (8 < (index2bitstring 300 8).length ∧
     bitstring2index (index2bitstring 300 8) = 300) :=
  ⟨by decide, C10_index2bitstring_overflow 300 8 (by decide)⟩

/-- C8: for all CQ objects `A` and `B`, `swap(A, B)` composed sequentially
with `swap(B, A)` equals (as the code's `__eq__`) the identity on
`A ⊗ B`; the composition passes the composability check, and `swap` applies
the wire exchange once to the classical dimensions and twice — ket and bra
legs in lockstep — to the quantum dimensions, as its entries factor into one
classical and two identical quantum swap indicators. -/
theorem C8_swap_self_inverse (A B : CQ) :
    ((CQMap.swap A B).thenU (CQMap.swap B A)).equiv (CQMap.id (A.tensor B)) ∧
    (CQMap.swap A B).then' (CQMap.swap B A)
      = Except.ok ((CQMap.swap A B).thenU (CQMap.swap B A)) ∧
    (CQMap.swap A B).dom = A.tensor B ∧
    (CQMap.swap A B).cod = B.tensor A ∧
    (∀ c1 c2 k1 k2 b1 b2 jc1 jc2 jk1 jk2 jb1 jb2 : List Nat,
       c1.length = A.classical.length → c2.length = B.classical.length →
       k1.length = A.quantum.length → k2.length = B.quantum.length →
       b1.length = A.quantum.length → b2.length = B.quantum.length →
       jc1.length = B.classical.length → jc2.length = A.classical.length →
       jk1.length = B.quantum.length → jk2.length = A.quantum.length →
       jb1.length = B.quantum.length →
       (CQMap.swap A B).array (c1 ++ c2 ++ (k1 ++ k2) ++ (b1 ++ b2))
           (jc1 ++ jc2 ++ (jk1 ++ jk2) ++ (jb1 ++ jb2))
         = (if jc1 = c2 ∧ jc2 = c1 then 1 else 0) *
             ((if jk1 = k2 ∧ jk2 = k1 then 1 else 0) *
               (if jb1 = b2 ∧ jb2 = b1 then 1 else 0))) :=
  ⟨swap_then_swap A B,
   by unfold CQMap.then'; exact if_pos rfl,
   rfl, rfl,
   fun _ _ _ _ _ _ _ _ _ _ _ _ hc1 hc2 hk1 hk2 hb1 hb2 hjc1 hjc2 hjk1 hjk2 hjb1 =>
     swapCQ_entry A B hc1 hc2 hk1 hk2 hb1 hb2 hjc1 hjc2 hjk1 hjk2 hjb1⟩

/-- C9: `CQMap.__add__`, although absent from the spec, requires equal
domains and equal codomains — raising an axiom error otherwise — and on
success returns the map with the same `dom` and `cod` whose array is the
entrywise sum of the operands' arrays (the operands themselves are
unchanged: addition builds a new map). -/
theorem C9_add_entrywise (f g : CQMap) :
    ((f.dom, f.cod) = (g.dom, g.cod) →
       f.add g = Except.ok ⟨f.dom, f.cod, fun i j => f.array i j + g.array i j⟩) ∧
    ((f.dom, f.cod) ≠ (g.dom, g.cod) →
       f.add g = Except.error "AxiomError: cannot add") := by
  constructor
  · intro h
    unfold CQMap.add
    rw [if_pos h]
  · intro h
    unfold CQMap.add
    rw [if_neg h]
